import Mathlib

/-!
Verification development for the mcp-ssh SSH operations broker.

The TypeScript sources embedded here are:
- src/src/tools/ssh-service.ts   (SSHService: connect, executeCommand, transfers, tunnels;
  the same file also carries the DockerCommandParser class)
- src/src/tools/container-context.ts (ContainerContextManager)
- src/unnamed/part_000           (SshMCP tool dispatcher: executeCommand tool handler,
  limitOutputLength)

Modelling conventions:
- JavaScript strings are Lean Strings; the character-level operations
  (trim, split, substring, word boundaries) are re-implemented on List Char
  to match the ECMAScript semantics used by the source.
- JavaScript regular expressions used by the source are encoded as regular
  expressions over Char with a Brzozowski-derivative matcher; RegExp.test
  (an unanchored search) is encoded by wrapping a pattern between two
  "match anything" stars.  For a pure pattern (no capture semantics are
  needed for .test) the backtracking search of the JS engine accepts exactly
  the language of the pattern, which is what the derivative matcher decides.
- Date.now() / new Date() is a logical clock (a Nat counter in the state
  that strictly increases at each use).
- The SSH transport, the keyring and the remote side are an oracle
  environment (Env): remote command execution is a function from the command
  string to a resolved CommandResult or a rejection message.
- Each stateful operation additionally returns the trace of command strings
  passed to the remote execution oracle, so "command X was (never) executed"
  is observable.
- Persistence (LokiJS), event emission and setTimeout-based reconnection are
  process-external I/O and are noted in comments where the source performs
  them; no verified claim depends on them.
-/

/-! ## JavaScript string primitives -/

/-- ECMAScript whitespace class, the set matched by the regex class \s. -/
def jsWS (c : Char) : Bool :=
  c == ' ' || c == '\t' || c == '\n' || c == '\r' ||
  c.toNat == 0x0b || c.toNat == 0x0c ||
  c.toNat == 0xa0 || c.toNat == 0x1680 ||
  (decide (0x2000 ≤ c.toNat) && decide (c.toNat ≤ 0x200a)) ||
  c.toNat == 0x2028 || c.toNat == 0x2029 || c.toNat == 0x202f ||
  c.toNat == 0x205f || c.toNat == 0x3000 || c.toNat == 0xfeff

/-- ECMAScript dot (without the s flag): any char except the four line terminators. -/
def jsDot (c : Char) : Bool :=
  !(c == '\n' || c == '\r' || c.toNat == 0x2028 || c.toNat == 0x2029)

/-- ECMAScript word character class \w = [A-Za-z0-9_]. -/
def jsWordChar (c : Char) : Bool :=
  (decide (0x41 ≤ c.toNat) && decide (c.toNat ≤ 0x5a)) ||
  (decide (0x61 ≤ c.toNat) && decide (c.toNat ≤ 0x7a)) ||
  (decide (0x30 ≤ c.toNat) && decide (c.toNat ≤ 0x39)) ||
  c == '_'

/-- Trim on char lists: drop leading and trailing JS whitespace (String.prototype.trim). -/
def jsTrimL (cs : List Char) : List Char :=
  ((cs.dropWhile jsWS).reverse.dropWhile jsWS).reverse

/-- String.prototype.trim. -/
def jsTrim (s : String) : String := ⟨jsTrimL s.data⟩

/-- Does the first list start with the second one. -/
def charsStartsWith : List Char → List Char → Bool
  | _, [] => true
  | [], _ :: _ => false
  | c :: cs, p :: ps => c == p && charsStartsWith cs ps

/-- Does the list contain the pattern as a contiguous sublist. -/
def charsContains (pat : List Char) : List Char → Bool
  | [] => charsStartsWith [] pat
  | c :: cs => charsStartsWith (c :: cs) pat || charsContains pat cs

/-- String.prototype.startsWith. -/
def strStartsWith (s p : String) : Bool := charsStartsWith s.data p.data

/-- String.prototype.includes. -/
def strContains (s pat : String) : Bool := charsContains pat.data s.data

/-- Splitting on runs of whitespace, as command.trim().split(/\s+/) produces
for a trimmed nonempty input: the list of maximal nonempty nonwhitespace runs. -/
def splitWSTokensGo : Nat → List Char → List (List Char)
  | 0, _ => []
  | fuel + 1, cs =>
    match cs with
    | [] => []
    | c :: cs =>
      if jsWS c then splitWSTokensGo fuel cs
      else (c :: cs.takeWhile (fun d => !jsWS d)) ::
        splitWSTokensGo fuel (cs.dropWhile (fun d => !jsWS d))

def splitWSTokens (cs : List Char) : List (List Char) :=
  splitWSTokensGo (cs.length + 1) cs

/-- String.prototype.split(sep) for a single-character separator: every
occurrence separates, empty pieces are kept. -/
def splitOnCharL (sep : Char) : List Char → List (List Char)
  | [] => [[]]
  | c :: cs =>
    if c == sep then [] :: splitOnCharL sep cs
    else
      match splitOnCharL sep cs with
      | [] => [[c]]
      | t :: ts => (c :: t) :: ts

/-- String.prototype.split(/\s*(?:&&|\|\||;)\s*/): a greedy leftmost scan.  A
match is a (possibly empty) whitespace run, a separator (&&, || or ; — the
alternatives of DockerCommandParser.COMPOUND_SEPARATORS; their first
characters differ, so the alternation order is immaterial), and a trailing
(possibly empty) whitespace run.  The scan keeps the accumulated piece (acc,
reversed) and the pending whitespace run (pend, reversed) that a following
separator would absorb.  The fuel argument strictly exceeds the number of
remaining characters and only bounds the loop.  Since whitespace characters are never separator
characters, the leftmost match of the JS regex starts at the whitespace run
directly preceding the first separator occurrence, which is what this scan
produces. -/
def splitCompoundGoAux : Nat → List Char → List Char → List Char → List (List Char)
  | 0, acc, pend, _ => [acc.reverse ++ pend.reverse]
  | fuel + 1, acc, pend, cs =>
    match cs with
    | [] => [acc.reverse ++ pend.reverse]
    | c :: rest =>
      if jsWS c then splitCompoundGoAux fuel acc (c :: pend) rest
      else if c == ';' then
        acc.reverse :: splitCompoundGoAux fuel [] [] (rest.dropWhile jsWS)
      else if (c == '&' && charsStartsWith rest ['&']) ||
              (c == '|' && charsStartsWith rest ['|']) then
        acc.reverse :: splitCompoundGoAux fuel [] [] ((rest.drop 1).dropWhile jsWS)
      else splitCompoundGoAux fuel (c :: (pend ++ acc)) [] rest

def splitCompoundGo (acc pend cs : List Char) : List (List Char) :=
  splitCompoundGoAux (cs.length + 1) acc pend cs

/-- The split driving DockerCommandParser.parseCompoundCommand. -/
def jsSplitCompound (s : String) : List String :=
  (splitCompoundGo [] [] s.data).map (fun l => (⟨l⟩ : String))

/-- DockerCommandParser.isCompoundCommand: COMPOUND_SEPARATORS.test(command).
Since both \s* in the separator pattern are nullable, the test succeeds
exactly when the line contains "&&", "||" or ";" anywhere. -/
def isCompoundCommand (s : String) : Bool :=
  strContains s "&&" || strContains s "||" || strContains s ";"

/-- Does a word boundary (as the regex metacharacter \b) sit after this prefix,
that is, before the given remaining characters, when the previous character
is a word character exactly when prevWord holds.  Only used right after the
word "sudo", whose last character is a word character. -/
def sudoBoundaryAfter : List Char → Bool
  | [] => true
  | d :: _ => !jsWordChar d

/-- command.replace(/\bsudo\b/g, 'sudo -S'): a left-to-right scan over the
original string; prevWord tracks whether the previously emitted source
character was a word character (so that \b before the match can be decided). -/
def replaceSudoGoAux : Nat → Bool → List Char → List Char
  | 0, _, cs => cs
  | fuel + 1, prevWord, cs =>
    match cs with
    | [] => []
    | c :: cs =>
      if !prevWord && charsStartsWith (c :: cs) "sudo".data &&
          sudoBoundaryAfter (cs.drop 3) then
        -- (c :: cs).drop 4 = cs.drop 3: continue right after the four matched chars
        "sudo -S".data ++ replaceSudoGoAux fuel true (cs.drop 3)
      else
        c :: replaceSudoGoAux fuel (jsWordChar c) cs

def replaceSudoGo (prevWord : Bool) (cs : List Char) : List Char :=
  replaceSudoGoAux (cs.length + 1) prevWord cs

/-- The sudo rewrite used by SSHService.executeCommand (ssh-service.ts:600). -/
def jsReplaceWordSudo (s : String) : String := ⟨replaceSudoGo false s.data⟩

/-! ## Regular expressions over Char with a Brzozowski-derivative matcher -/

/-- Regular expressions over Char; cpred is a one-character predicate class. -/
inductive RE where
  | emp : RE
  | eps : RE
  | cpred : (Char → Bool) → RE
  | cat : RE → RE → RE
  | alt : RE → RE → RE
  | star : RE → RE

/-- Does the regular expression accept the empty word. -/
def RE.nullable : RE → Bool
  | .emp => false
  | .eps => true
  | .cpred _ => false
  | .cat a b => a.nullable && b.nullable
  | .alt a b => a.nullable || b.nullable
  | .star _ => true

/-- Smart concatenation (absorbs emp, drops a left eps) to keep derivatives small. -/
def mkCat : RE → RE → RE
  | .emp, _ => .emp
  | .eps, r => r
  | a, b => .cat a b

/-- Smart alternation (drops emp on either side) to keep derivatives small. -/
def mkAlt : RE → RE → RE
  | .emp, r => r
  | a, .emp => a
  | a, b => .alt a b

/-- Brzozowski derivative. -/
def RE.deriv : RE → Char → RE
  | .emp, _ => .emp
  | .eps, _ => .emp
  | .cpred p, c => if p c then .eps else .emp
  | .cat a b, c =>
    if a.nullable then mkAlt (mkCat (a.deriv c) b) (b.deriv c)
    else mkCat (a.deriv c) b
  | .alt a b, c => mkAlt (a.deriv c) (b.deriv c)
  | .star a, c => mkCat (a.deriv c) (.star a)

/-- The derivative matcher: word membership in the language. -/
def rmatch (r : RE) (cs : List Char) : Bool := (cs.foldl RE.deriv r).nullable

/-- Declarative language semantics of the regular expressions. -/
inductive RE.Matches : RE → List Char → Prop where
  | eps : RE.Matches .eps []
  | cpred {p : Char → Bool} {c : Char} : p c = true → RE.Matches (.cpred p) [c]
  | cat {a b s t} : RE.Matches a s → RE.Matches b t → RE.Matches (.cat a b) (s ++ t)
  | altL {a b s} : RE.Matches a s → RE.Matches (.alt a b) s
  | altR {a b s} : RE.Matches b s → RE.Matches (.alt a b) s
  | starNil {a} : RE.Matches (.star a) []
  | starCons {a s t} : RE.Matches a s → RE.Matches (.star a) t →
      RE.Matches (.star a) (s ++ t)

/-- Case-insensitive single character (the i flag on a literal). -/
def ciPred (ch : Char) : RE := .cpred (fun c => c == ch || c.toLower == ch)

/-- Case-insensitive literal over a char list. -/
def reLitCiL (l : List Char) : RE := l.foldr (fun ch acc => .cat (ciPred ch) acc) .eps

/-- Case-insensitive literal. -/
def reLitCi (s : String) : RE := reLitCiL s.data

def reWS : RE := .cpred jsWS
def reNonWS : RE := .cpred (fun c => !jsWS c)
def reDot : RE := .cpred jsDot
def reAny : RE := .cpred (fun _ => true)
def rePlus (r : RE) : RE := .cat r (.star r)
def reOpt (r : RE) : RE := .alt r .eps
def reAsciiLetter : RE :=
  .cpred (fun c =>
    (decide (0x41 ≤ c.toNat) && decide (c.toNat ≤ 0x5a)) ||
    (decide (0x61 ≤ c.toNat) && decide (c.toNat ≤ 0x7a)))
def reDash : RE := .cpred (fun c => c == '-')

/-- One option group of the docker regexes: (?:-[a-zA-Z]+(?:\s+\S+)?\s*). -/
def dockerOptGroup : RE :=
  .cat reDash (.cat (rePlus reAsciiLetter)
    (.cat (reOpt (.cat (rePlus reWS) (rePlus reNonWS))) (.star reWS)))

/-- DockerCommandParser.DOCKER_EXEC_REGEX:
docker\s+exec\s+(?:-[a-zA-Z]+(?:\s+\S+)?\s*)*\s*\S+\s+.+  with the i flag. -/
def dockerExecCore : RE :=
  .cat (reLitCi "docker") (.cat (rePlus reWS) (.cat (reLitCi "exec") (.cat (rePlus reWS)
    (.cat (.star dockerOptGroup) (.cat (.star reWS) (.cat (rePlus reNonWS)
      (.cat (rePlus reWS) (rePlus reDot))))))))

/-- DockerCommandParser.DOCKER_RUN_REGEX:
docker\s+run\s+(?:-[a-zA-Z]+(?:\s+\S+)?\s*)*\s*\S+\s*.*  with the i flag. -/
def dockerRunCore : RE :=
  .cat (reLitCi "docker") (.cat (rePlus reWS) (.cat (reLitCi "run") (.cat (rePlus reWS)
    (.cat (.star dockerOptGroup) (.cat (.star reWS) (.cat (rePlus reNonWS)
      (.cat (.star reWS) (.star reDot))))))))

/-- RegExp.prototype.test is an unanchored search: wrap the pattern between
two unconstrained stars and decide whole-word membership. -/
def reSearch (r : RE) : RE := .cat (.star reAny) (.cat r (.star reAny))

/-- DockerCommandParser.isDockerExecCommand. -/
def isDockerExecCommand (s : String) : Bool := rmatch (reSearch dockerExecCore) s.data

/-- DockerCommandParser.isDockerRunCommand. -/
def isDockerRunCommand (s : String) : Bool := rmatch (reSearch dockerRunCore) s.data

/-! ## DockerCommandParser (ssh-service.ts, embedded docker-parser source) -/

/-- DockerExecCommand of docker-parser. -/
structure DockerExecCommand where
  containerName : String
  command : String
  options : List String
  workdir : Option String
  user : Option String
  env : List (String × String)
deriving DecidableEq

/-- The four values of ParsedCommand.type. -/
inductive ParsedType where
  | docker_exec | docker_run | regular | compound
deriving DecidableEq

/-- ParsedCommand of docker-parser; needsContainerContext is an optional field
in the source and undefined is falsy, so it is a Bool defaulting to false. -/
structure ParsedCommand where
  ptype : ParsedType
  originalCommand : String
  dockerCommands : List DockerExecCommand
  regularCommands : List String
  needsContainerContext : Bool := false
deriving DecidableEq

/-- Association-list update with JavaScript Map.set semantics: replace in
place when the key exists, append otherwise (insertion order is kept). -/
def alSet {α : Type} : List (String × α) → String → α → List (String × α)
  | [], k, v => [(k, v)]
  | (k', v') :: rest, k, v =>
    if k' = k then (k, v) :: rest else (k', v') :: alSet rest k v

/-- Association-list lookup (Map.get). -/
def alGet {α : Type} : List (String × α) → String → Option α
  | [], _ => none
  | (k', v) :: rest, k => if k' = k then some v else alGet rest k

/-- Association-list removal of one key (Map.delete). -/
def alRemove {α : Type} : List (String × α) → String → List (String × α)
  | [], _ => []
  | (k', v) :: rest, k => if k' = k then rest else (k', v) :: alRemove rest k

/-- Association-list in-place update of one key, when present. -/
def alUpdate {α : Type} : List (String × α) → String → (α → α) → List (String × α)
  | [], _, _ => []
  | (k', v) :: rest, k, f =>
    if k' = k then (k', f v) :: rest else (k', v) :: alUpdate rest k f

/-- JavaScript object assignment env[key] = value: overwrite keeps the original
insertion position, a new key is appended (Object.entries order). -/
def envSet : List (String × String) → String → String → List (String × String)
  | [], k, v => [(k, v)]
  | (k', v') :: rest, k, v =>
    if k' = k then (k', v) :: rest else (k', v') :: envSet rest k v

/-- envVar.split('=', 2): the first two pieces of the split on every '='.
The key is the text before the first '=', the value the text between the
first and the second '=' (or to the end); anything after a second '=' is
dropped by the limit. -/
def splitEqLimit2 (s : String) : String × String :=
  match splitOnCharL '=' s.data with
  | [] => ("", "")
  | [k] => (⟨k⟩, "")
  | k :: v :: _ => (⟨k⟩, ⟨v⟩)

/-- Accumulator of the option-parsing loop in parseDockerExecCommand. -/
structure DockerOptAcc where
  options : List String := []
  workdir : Option String := none
  user : Option String := none
  env : List (String × String) := []

/-- The while loop of DockerCommandParser.parseDockerExecCommand over the
tokens following "docker exec".  Returns the accumulated options, the
container name and the joined command, or none when the loop runs out of
tokens before a container name and a command are found (the source returns
null in those cases). -/
def dockerExecLoopAux : Nat → DockerOptAcc → List String → Option (DockerOptAcc × String × String)
  | 0, _, _ => none
  | fuel + 1, acc, toks =>
    match toks with
    | [] => none
    | tok :: rest =>
      if strStartsWith tok "-" then
        if tok = "-w" || tok = "--workdir" then
          match rest with
          | [] => none
          | w :: rest2 => dockerExecLoopAux fuel { acc with workdir := some w } rest2
        else if tok = "-u" || tok = "--user" then
          match rest with
          | [] => none
          | u :: rest2 => dockerExecLoopAux fuel { acc with user := some u } rest2
        else if tok = "-e" || tok = "--env" then
          match rest with
          | [] => none
          | v :: rest2 =>
            if strContains v "=" then
              let kv := splitEqLimit2 v
              dockerExecLoopAux fuel { acc with env := envSet acc.env kv.1 kv.2 } rest2
            else dockerExecLoopAux fuel acc rest2
        else if tok = "-p" || tok = "-v" || tok = "--name" then
          match rest with
          | [] => none
          | v :: rest2 =>
            if strStartsWith v "-" then
              dockerExecLoopAux fuel { acc with options := acc.options ++ [tok] } (v :: rest2)
            else dockerExecLoopAux fuel { acc with options := acc.options ++ [tok, v] } rest2
        else dockerExecLoopAux fuel { acc with options := acc.options ++ [tok] } rest
      else
        match rest with
        | [] => none
        | _ :: _ => some (acc, tok, String.intercalate " " rest)

def dockerExecLoop (acc : DockerOptAcc) (toks : List String) :
    Option (DockerOptAcc × String × String) :=
  dockerExecLoopAux (toks.length + 1) acc toks

/-- DockerCommandParser.parseDockerExecCommand. -/
def parseDockerExecCommand (command : String) : Option DockerExecCommand :=
  let parts := (splitWSTokens (jsTrim command).data).map (fun l => (⟨l⟩ : String))
  match parts with
  | "docker" :: "exec" :: rest =>
    match dockerExecLoop {} rest with
    | none => none
    | some (acc, name, cmd) =>
      some { containerName := name, command := cmd, options := acc.options,
             workdir := acc.workdir, user := acc.user, env := acc.env }
  | _ => none

/-- The for loop of DockerCommandParser.parseCompoundCommand: classify each
nonempty trimmed part; a part passing the docker-exec regex whose detailed
parse fails is dropped (it lands in neither list). -/
def compoundLoop : List String → List DockerExecCommand × List String × Bool
  | [] => ([], [], false)
  | p :: rest =>
    let t := jsTrim p
    let r := compoundLoop rest
    if t = "" then r
    else if isDockerExecCommand t then
      match parseDockerExecCommand t with
      | some d => (d :: r.1, r.2.1, true)
      | none => r
    else (r.1, t :: r.2.1, r.2.2)

/-- DockerCommandParser.parseCompoundCommand. -/
def parseCompoundCommand (command : String) : ParsedCommand :=
  let r := compoundLoop (jsSplitCompound command)
  { ptype := .compound, originalCommand := command,
    dockerCommands := r.1, regularCommands := r.2.1,
    needsContainerContext := r.2.2 && !r.2.1.isEmpty }

/-- DockerCommandParser.parseCommand. -/
def parseCommand (command : String) : ParsedCommand :=
  let trimmed := jsTrim command
  if isCompoundCommand trimmed then parseCompoundCommand trimmed
  else if isDockerExecCommand trimmed then
    { ptype := .docker_exec, originalCommand := trimmed,
      dockerCommands := (parseDockerExecCommand trimmed).toList,
      regularCommands := [] }
  else if isDockerRunCommand trimmed then
    { ptype := .docker_run, originalCommand := trimmed,
      dockerCommands := [], regularCommands := [trimmed] }
  else
    { ptype := .regular, originalCommand := trimmed,
      dockerCommands := [], regularCommands := [trimmed] }

/-- DockerCommandParser.buildDockerExecCommand (string reassembly). -/
def buildDockerExecCommand (d : DockerExecCommand) : String :=
  let c := "docker exec"
  let c := if d.options.isEmpty then c else c ++ " " ++ String.intercalate " " d.options
  -- if (dockerCmd.workdir): undefined and "" are falsy
  let c := match d.workdir with
    | some w => if w = "" then c else c ++ " -w " ++ w
    | none => c
  let c := match d.user with
    | some u => if u = "" then c else c ++ " -u " ++ u
    | none => c
  -- dockerCmd.env is always an object; iterate its entries in insertion order
  let c := d.env.foldl (fun c kv => c ++ " -e " ++ kv.1 ++ "=" ++ kv.2) c
  c ++ " " ++ d.containerName ++ " " ++ d.command

/-- DockerCommandParser.buildContainerCommand. -/
def buildContainerCommand (p : ParsedCommand) (defaultContainer : Option String) : List String :=
  if p.ptype = .regular then p.regularCommands
  else if p.ptype = .docker_exec then [p.originalCommand]
  else if p.ptype = .compound && p.needsContainerContext then
    let cmds := p.dockerCommands.map buildDockerExecCommand
    -- currentContainer starts at defaultContainer and is overwritten by each
    -- docker segment, so it ends at the last segment's container name
    let currentContainer :=
      match p.dockerCommands.getLast? with
      | some d => some d.containerName
      | none => defaultContainer
    match currentContainer with
    | some n =>
      -- if (currentContainer && regularCommands.length > 0): "" is falsy
      if n ≠ "" && !p.regularCommands.isEmpty then
        cmds ++ ["docker exec " ++ n ++ " sh -c \"" ++
                 String.intercalate " && " p.regularCommands ++ "\""]
      else cmds
    | none => cmds
  else [p.originalCommand]

/-! ## ContainerContextManager (container-context.ts) -/

/-- ContainerSession record; lastActivity is a logical-clock tick. -/
structure ContainerSession where
  connectionId : String
  containerName : String
  workingDirectory : String
  environment : List (String × String)
  user : Option String
  lastActivity : Nat
  isActive : Bool
deriving DecidableEq

/-- The options object accepted by setContainerContext. -/
structure SetContextOpts where
  workingDirectory : Option String := none
  environment : Option (List (String × String)) := none
  user : Option String := none

/-- The map key used by the manager: connectionId:containerName. -/
def sessionKey (connId name : String) : String := connId ++ ":" ++ name

/-- ContainerContextManager.setContainerContext (now is the current tick). -/
def setContainerContext (now : Nat) (m : List (String × ContainerSession))
    (connId name : String) (opts : SetContextOpts) : List (String × ContainerSession) :=
  alSet m (sessionKey connId name)
    { connectionId := connId, containerName := name,
      -- options?.workingDirectory || '/root': undefined and "" fall back
      workingDirectory :=
        (match opts.workingDirectory with
         | some w => if w = "" then "/root" else w
         | none => "/root"),
      environment := opts.environment.getD [],
      user := opts.user, lastActivity := now, isActive := true }

/-- ContainerContextManager.getContainerContext with an explicit name. -/
def getContainerContextNamed (m : List (String × ContainerSession))
    (connId name : String) : Option ContainerSession :=
  alGet m (sessionKey connId name)

/-- One iteration of the getActiveContainer scan: keep the active session of
this connection with the strictly greatest lastActivity seen so far. -/
def gacStep (connId : String) (best : Option String × Nat)
    (kv : String × ContainerSession) : Option String × Nat :=
  if kv.2.connectionId = connId && kv.2.isActive &&
      decide (best.2 < kv.2.lastActivity) then
    (some kv.2.containerName, kv.2.lastActivity)
  else best

/-- ContainerContextManager.getActiveContainer: scan all sessions in insertion
order (latestActivity starts at 0, the epoch). -/
def getActiveContainer (m : List (String × ContainerSession))
    (connId : String) : Option String :=
  (m.foldl (gacStep connId) (none, 0)).1

/-- ContainerContextManager.updateActivity. -/
def updateActivity (now : Nat) (m : List (String × ContainerSession))
    (connId name : String) : List (String × ContainerSession) :=
  alUpdate m (sessionKey connId name) (fun s => { s with lastActivity := now })

/-- ContainerContextManager.buildContainerExecCommand. -/
def buildContainerExecCommand (containerName command : String)
    (session : Option ContainerSession) (interactive : Bool) : String :=
  let e := "docker exec"
  let e := if interactive then e ++ " -it" else e
  -- if (session?.workingDirectory): "" is falsy
  let e := match session with
    | some s => if s.workingDirectory = "" then e else e ++ " -w " ++ s.workingDirectory
    | none => e
  let e := match session with
    | some s =>
      match s.user with
      | some u => if u = "" then e else e ++ " -u " ++ u
      | none => e
    | none => e
  let e := match session with
    | some s => s.environment.foldl
        (fun e kv => e ++ " -e " ++ kv.1 ++ "=\"" ++ kv.2 ++ "\"") e
    | none => e
  e ++ " " ++ containerName ++ " " ++ command

/-! ## SSHService state model (ssh-service.ts) -/

/-- CommandResult of ssh-service.ts. -/
structure CommandResult where
  stdout : String
  stderr : String
  code : Int
deriving DecidableEq

/-- ConnectionStatus enum. -/
inductive ConnectionStatus where
  | disconnected | connecting | connected | reconnecting | error
deriving DecidableEq

/-- SSHConnectionConfig.  Optional TS fields are Options; a field absent from
a TS object literal is none. -/
structure SSHConnectionConfig where
  host : String
  port : Option Nat := none
  username : String
  password : Option String := none
  privateKey : Option String := none
  passphrase : Option String := none
  keepaliveInterval : Option Nat := none
  readyTimeout : Option Nat := none
  reconnect : Option Bool := none
  reconnectTries : Option Nat := none
  reconnectDelay : Option Nat := none
deriving DecidableEq

/-- SSHConnection.  The live NodeSSH client is modelled by a generation
number: client = some g says a live client (the g-th transport ever
established) is owned by this record, none says there is no client. -/
structure SSHConnection where
  id : String
  name : Option String := none
  config : SSHConnectionConfig
  status : ConnectionStatus
  lastUsed : Option Nat := none
  lastError : Option String := none
  client : Option Nat := none
  tags : Option (List String) := none
  currentDirectory : Option String := none
deriving DecidableEq

/-- The in-memory state of SSHService that the verified claims touch:
the connections map, the ContainerContextManager session map, the logical
clock and the next transport generation number.  The LokiJS collections are
process-external persistence and are not part of the state. -/
structure ServiceState where
  connections : List (String × SSHConnection)
  containerSessions : List (String × ContainerSession)
  now : Nat
  nextClient : Nat
deriving DecidableEq

/-- The connect options record built at ssh-service.ts:413 (environment
variables DEFAULT_SSH_PORT and CONNECTION_TIMEOUT are taken as absent, so
their parseInt defaults 22 and 10000 apply). -/
structure ConnectOptions where
  host : String
  port : Nat
  username : String
  password : Option String
  privateKey : Option String
  passphrase : Option String
  keepaliveInterval : Nat
  readyTimeout : Nat
deriving DecidableEq

/-- The process-external world: the remote execution oracle (a client's
execCommand resolving with a result or rejecting with an error message),
the credential store (keytar / the credentials collection), and the SSH
transport (ssh.connect succeeding, none, or rejecting with a message). -/
structure Env where
  exec : String → Except String CommandResult
  credentialPassword : String → Option String
  credentialPassphrase : String → Option String
  transport : ConnectOptions → Option String

/-- Outcome of a service-level operation: a value returned to the caller, an
exception propagated to the caller, or exhaustion of the recursion fuel of
the model (the source recursion at ssh-service.ts:567 has no such bound). -/
inductive ExecOut where
  | ok : CommandResult → ExecOut
  | thrown : String → ExecOut
  | fuelOut : ExecOut
deriving DecidableEq

/-- The error message thrown when a connection is missing, clientless or not
connected (ssh-service.ts:542). -/
def notConnectedMsg (connectionId : String) : String :=
  "连接 " ++ connectionId ++ " 不可用或未连接"

/-- The error message thrown by executeDockerContextCommand's own check
(ssh-service.ts:650). -/
def notAvailableMsg (connectionId : String) : String :=
  "连接 " ++ connectionId ++ " 不可用"

/-- SSHService.getCurrentDirectory: check the connection, run pwd, trim; any
execution error is caught and yields "".  Returns the trace of remote
commands and either the directory or the thrown message. -/
def getCurrentDirectory (env : Env) (st : ServiceState) (connectionId : String) :
    List String × Except String String :=
  match alGet st.connections connectionId with
  | none => ([], .error (notConnectedMsg connectionId))
  | some conn =>
    if conn.client.isSome && conn.status = ConnectionStatus.connected then
      match env.exec "pwd" with
      | .ok r => (["pwd"], .ok (jsTrim r.stdout))
      | .error _ => (["pwd"], .ok "")
    else ([], .error (notConnectedMsg connectionId))

/-- One docker segment executed by the loop of executeDockerContextCommand
(ssh-service.ts:660-691): build the segment command, run it, accumulate
stdout/stderr with a trailing newline when nonempty, set the container
context and bump its activity, and stop early on a nonzero exit code.  A
rejection of the remote execution carries the partial accumulators out to
the surrounding catch. -/
def dockerCtxLoop (env : Env) (parsed : ParsedCommand) (connId : String) :
    ServiceState → List DockerExecCommand → String → String → Int → Option String →
    ServiceState × List String × (Except (String × String × String)
      (String × String × Int × Option String))
  | st, [], co, ce, lastCode, active => (st, [], .ok (co, ce, lastCode, active))
  | st, d :: rest, co, ce, _, _ =>
    let dockerExecCommand :=
      (buildContainerCommand { parsed with dockerCommands := [d] } none).headD ""
    match env.exec dockerExecCommand with
    | .error m => (st, [dockerExecCommand], .error (m, co, ce))
    | .ok r =>
      let co := if r.stdout ≠ "" then co ++ r.stdout ++ "\n" else co
      let ce := if r.stderr ≠ "" then ce ++ r.stderr ++ "\n" else ce
      let code := r.code  -- result.code || 0 (null is not modelled; 0 maps to 0)
      let st := { st with
        containerSessions := setContainerContext st.now st.containerSessions connId
          d.containerName { workingDirectory := d.workdir, environment := some d.env,
                            user := d.user },
        now := st.now + 1 }
      let st := { st with
        containerSessions := updateActivity st.now st.containerSessions connId
          d.containerName,
        now := st.now + 1 }
      if code ≠ 0 then (st, [dockerExecCommand], .ok (co, ce, code, some d.containerName))
      else
        let r' := dockerCtxLoop env parsed connId st rest co ce code (some d.containerName)
        (r'.1, dockerExecCommand :: r'.2.1, r'.2.2)

/-- SSHService.executeDockerContextCommand (ssh-service.ts:643-737). -/
def executeDockerContextCommand (env : Env) (st : ServiceState)
    (connectionId : String) (parsed : ParsedCommand) :
    ServiceState × List String × ExecOut :=
  match alGet st.connections connectionId with
  | none => (st, [], .thrown (notAvailableMsg connectionId))
  | some _conn =>
    if _conn.client.isNone then (st, [], .thrown (notAvailableMsg connectionId))
    else
      match dockerCtxLoop env parsed connectionId st parsed.dockerCommands "" "" 0 none with
      | (st', tr, .error (m, co, ce)) =>
        -- catch: stdout is the partial output, stderr appends the message, exit 1
        (st', tr, .ok ⟨jsTrim co, jsTrim (ce ++ m), 1⟩)
      | (st', tr, .ok (co, ce, lastCode, active)) =>
        match active with
        | some a =>
          -- if (regularCommands.length > 0 && activeContainer && lastExitCode === 0)
          if !parsed.regularCommands.isEmpty && a ≠ "" && lastCode = 0 then
            let containerSession := getContainerContextNamed st'.containerSessions connectionId a
            let combinedRegularCommand := String.intercalate " && " parsed.regularCommands
            let containerExecCommand := buildContainerExecCommand a
              ("sh -c \"" ++ combinedRegularCommand ++ "\"") containerSession false
            match env.exec containerExecCommand with
            | .error m => (st', tr ++ [containerExecCommand], .ok ⟨jsTrim co, jsTrim (ce ++ m), 1⟩)
            | .ok r =>
              let co := if r.stdout ≠ "" then co ++ r.stdout else co
              let ce := if r.stderr ≠ "" then ce ++ r.stderr else ce
              let st'' := { st' with
                containerSessions := updateActivity st'.now st'.containerSessions connectionId a,
                now := st'.now + 1 }
              (st'', tr ++ [containerExecCommand], .ok ⟨jsTrim co, jsTrim ce, r.code⟩)
          else (st', tr, .ok ⟨jsTrim co, jsTrim ce, lastCode⟩)
        | none => (st', tr, .ok ⟨jsTrim co, jsTrim ce, lastCode⟩)

/-- The sudo branch of SSHService.executeCommand (ssh-service.ts:587-604):
when the command trim-starts with "sudo " or contains " sudo ", and a
password is available (the connection's configured password, else the
credential store), each word-bounded sudo becomes sudo -S and the whole
command is piped the password with stderr silenced. -/
def sudoRewrite (env : Env) (conn : SSHConnection) (command : String) : String :=
  if strStartsWith (jsTrim command) "sudo " || strContains command " sudo " then
    let password :=
      match conn.config.password with
      | some p => if p = "" then env.credentialPassword conn.id else some p
      | none => env.credentialPassword conn.id
    match password with
    | some p =>
      if p = "" then command
      else "echo \"" ++ p ++ "\" | " ++ jsReplaceWordSudo command ++ " 2>/dev/null"
    | none => command
  else command

/-- The tail of SSHService.executeCommand after the docker dispatch
(ssh-service.ts:570-629): build exec options (cwd/timeout only feed the
remote call and are not otherwise observable), apply the sudo rewrite, run
the command, refresh currentDirectory when the (rewritten) command starts
with "cd ", and after a docker_exec record the container context. -/
def executeCommandRest (env : Env) (st : ServiceState) (connectionId : String)
    (conn : SSHConnection) (command : String) (parsed : ParsedCommand) :
    ServiceState × List String × ExecOut :=
  let command2 := sudoRewrite env conn command
  match env.exec command2 with
  | .error m => (st, [command2], .thrown m)
  | .ok result =>
    let afterCd : ServiceState × List String × Option String :=
      if strStartsWith (jsTrim command2) "cd " then
        match getCurrentDirectory env st connectionId with
        | (tr, .error m) => (st, command2 :: tr, some m)
        | (tr, .ok dir) =>
          ({ st with connections := alUpdate st.connections connectionId (fun c =>
              { c with currentDirectory := some dir }) },
           command2 :: tr, none)
      else (st, [command2], none)
    match afterCd with
    | (st1, tr, some m) => (st1, tr, .thrown m)
    | (st1, tr, none) =>
      let st2 :=
        if parsed.ptype = ParsedType.docker_exec then
          match parsed.dockerCommands with
          | d :: _ =>
            let stA := { st1 with
              containerSessions := setContainerContext st1.now st1.containerSessions
                connectionId d.containerName
                { workingDirectory := d.workdir, environment := some d.env, user := d.user },
              now := st1.now + 1 }
            { stA with
              containerSessions := updateActivity stA.now stA.containerSessions
                connectionId d.containerName,
              now := stA.now + 1 }
          | [] => st1
        else st1
      (st2, tr, .ok ⟨result.stdout, result.stderr, result.code⟩)

/-- The try-block of SSHService.executeCommand (ssh-service.ts:545-629): parse,
dispatch to the docker-context executor when the parse needs container
context, wrap a regular command into the active container and re-enter the
pipeline (the recursion is the recurse parameter), otherwise execute. -/
def executeCommandBody (env : Env)
    (recurse : ServiceState → String → String → ServiceState × List String × ExecOut)
    (st : ServiceState) (connectionId command : String) (conn : SSHConnection) :
    ServiceState × List String × ExecOut :=
  let parsed := parseCommand command
  if parsed.needsContainerContext then
    executeDockerContextCommand env st connectionId parsed
  else
    match getActiveContainer st.containerSessions connectionId with
    | some activeContainer =>
      -- if (activeContainer && parsedCommand.type === 'regular'): "" is falsy
      if activeContainer ≠ "" && parsed.ptype = ParsedType.regular then
        let containerSession :=
          getContainerContextNamed st.containerSessions connectionId activeContainer
        let containerCommand :=
          buildContainerExecCommand activeContainer command containerSession false
        recurse st connectionId containerCommand
      else executeCommandRest env st connectionId conn command parsed
    | none => executeCommandRest env st connectionId conn command parsed

/-- SSHService.executeCommand (ssh-service.ts:539-640), with explicit
recursion fuel.  The initial check throws to the caller; every exception
raised inside the try-block (including one propagated out of the recursive
call) is caught and resolved as a CommandResult with empty stdout, the
message as stderr and exit code 1.  The options argument (cwd/timeout) only
shapes the remote call and is omitted from the model signature; the oracle
is keyed by the command string. -/
def executeCommand (env : Env) :
    Nat → ServiceState → String → String → ServiceState × List String × ExecOut
  | 0, st, _, _ => (st, [], .fuelOut)
  | fuel + 1, st, connectionId, command =>
    match alGet st.connections connectionId with
    | none => (st, [], .thrown (notConnectedMsg connectionId))
    | some conn =>
      if conn.client.isNone || conn.status ≠ ConnectionStatus.connected then
        (st, [], .thrown (notConnectedMsg connectionId))
      else
        match executeCommandBody env (executeCommand env fuel) st connectionId command conn with
        | (st', tr, .thrown m) => (st', tr, .ok ⟨"", m, 1⟩)
        | (st', tr, o) => (st', tr, o)

/-! ## SSHService.connect (ssh-service.ts:367-455) -/

/-- config.port || 22 (also used with the absent DEFAULT_SSH_PORT env var):
undefined and 0 fall back to 22. -/
def jsPort : Option Nat → Nat
  | some p => if p = 0 then 22 else p
  | none => 22

/-- SSHService.generateConnectionId: the md5 hex digest of
username@host:port with the port defaulting to 22.  The digest function is
a parameter of the model. -/
def generateConnectionId (hash : String → String) (config : SSHConnectionConfig) : String :=
  hash (config.username ++ "@" ++ config.host ++ ":" ++ toString (jsPort config.port))

/-- The connectOptions object of ssh-service.ts:413-422. -/
def buildConnectOptions (config : SSHConnectionConfig) : ConnectOptions :=
  { host := config.host
    port := jsPort config.port
    username := config.username
    password := config.password
    privateKey := config.privateKey
    passphrase := config.passphrase
    keepaliveInterval :=
      match config.keepaliveInterval with
      | some k => if k = 0 then 60000 else k
      | none => 60000
    readyTimeout :=
      match config.readyTimeout with
      | some t => if t = 0 then 10000 else t
      | none => 10000 }

/-- Result of connect: the connection record returned, or the rethrown
connect error. -/
inductive ConnectRes where
  | ok : SSHConnection → ConnectRes
  | err : String → ConnectRes
deriving DecidableEq

/-- The credential fallback of ssh-service.ts:399-407: when neither a password
nor a private key is configured (undefined and "" are falsy), pull the saved
password and passphrase from the credential store (each only when truthy). -/
def fillCredentials (env : Env) (connectionId : String)
    (config : SSHConnectionConfig) : SSHConnectionConfig :=
  let passwordMissing := match config.password with | some p => p = "" | none => true
  let keyMissing := match config.privateKey with | some k => k = "" | none => true
  if passwordMissing && keyMissing then
    let cfg :=
      match env.credentialPassword connectionId with
      | some p => if p = "" then config else { config with password := some p }
      | none => config
    match env.credentialPassphrase connectionId with
    | some q => if q = "" then cfg else { cfg with passphrase := some q }
    | none => cfg
  else config

/-- The failure path of connect (ssh-service.ts:443-454): mark the connection
errored, record the message, and rethrow.  The reconnect scheduling is a
setTimeout outside the sequential model. -/
def connectFail (st : ServiceState) (connectionId m : String) :
    ServiceState × Bool × ConnectRes :=
  ({ st with connections := alUpdate st.connections connectionId (fun c =>
      { c with status := .error, lastError := some m }) },
   true, .err m)

/-- The transport attempt of connect (ssh-service.ts:409-442), entered after
the connected-client short circuit: the connection record (updated or fresh)
is already stored, credentials have been filled into cfg.  On success the
record gets a fresh client, connected status, a refreshed currentDirectory
(a pwd probe whose own failure yields ""), and is returned; persistence of
the record and (with rememberPassword) of the secrets is external I/O.  The
Bool of the result says whether a transport was established or attempted. -/
def connectAttempt (env : Env) (st : ServiceState) (connectionId : String)
    (conn1 : SSHConnection) (cfg : SSHConnectionConfig) (isNew : Bool) :
    ServiceState × Bool × ConnectRes :=
  -- for a new connection the stored record's config is the same mutated object
  let conn1 := if isNew then { conn1 with config := cfg } else conn1
  let st0 := { st with connections := alSet st.connections connectionId conn1 }
  match env.transport (buildConnectOptions cfg) with
  | some m => connectFail st0 connectionId m
  | none =>
    let conn2 := { conn1 with
      client := some st0.nextClient, status := .connected,
      lastUsed := some st0.now, lastError := none }
    let st1 := { st0 with
      connections := alSet st0.connections connectionId conn2,
      nextClient := st0.nextClient + 1 }
    match getCurrentDirectory env st1 connectionId with
    | (_, .error m) => connectFail st1 connectionId m
    | (_, .ok dir) =>
      let conn3 := { conn2 with currentDirectory := some dir }
      let st2 := { st1 with
        connections := alSet st1.connections connectionId conn3,
        now := st1.now + 1 }
      (st2, true, .ok conn3)

/-- SSHService.connect.  The Bool of the result says whether an SSH transport
was attempted (false exactly on the connected-client short circuit). -/
def connect (env : Env) (hash : String → String) (st : ServiceState)
    (config : SSHConnectionConfig) (name : Option String)
    (tags : Option (List String)) : ServiceState × Bool × ConnectRes :=
  let connectionId := generateConnectionId hash config
  match alGet st.connections connectionId with
  | some conn0 =>
    if conn0.status = ConnectionStatus.connected && conn0.client.isSome then
      (st, false, .ok conn0)
    else
      -- {...connection.config, ...config} replaces every field present in the
      -- supplied config; fields absent in TS are none here, so the spread is
      -- modelled as replacement by config
      let conn1 := { conn0 with
        config := config,
        name := (match name with
                 | some n => if n = "" then conn0.name else some n
                 | none => conn0.name),
        tags := (match tags with | some t => some t | none => conn0.tags),
        status := ConnectionStatus.connecting }
      connectAttempt env st connectionId conn1
        (fillCredentials env connectionId config) false
  | none =>
    let defaultName := config.username ++ "@" ++ config.host
    let conn1 : SSHConnection := {
      id := connectionId,
      name := some (match name with
                    | some n => if n = "" then defaultName else n
                    | none => defaultName),
      config := config, status := .connecting, tags := tags,
      lastUsed := some st.now }
    connectAttempt env st connectionId conn1
      (fillCredentials env connectionId config) true

/-! ## SFTP Transfer records (ssh-service.ts:997-1277) -/

/-- Transfer status values. -/
inductive TransferStatus where
  | pending | inProgress | completed | failed
deriving DecidableEq

/-- Transfer direction. -/
inductive TransferDirection where
  | upload | download
deriving DecidableEq

/-- FileTransferInfo; startTime/endTime are reduced to the ended flag (endTime
set), which is all the verified claims observe. -/
structure FileTransferInfo where
  id : String
  localPath : String
  remotePath : String
  direction : TransferDirection
  status : TransferStatus
  progress : Nat
  size : Nat
  bytesTransferred : Nat
  error : Option String := none
  ended : Bool := false
deriving DecidableEq

/-- Math.round((bytes / size) * 100) for nonnegative operands: round half up,
floor((200*bytes + size) / (2*size)).  (For size = 0 the JS expression is
NaN or Infinity; Nat division makes this 0, and no data event occurs for an
empty file, so the case is unreachable along valid traces.) -/
def jsRound100 (bytes size : Nat) : Nat := (200 * bytes + size) / (2 * size)

/-- Stream events hitting one transfer: a data chunk of n bytes, a stream
error, or the write stream closing. -/
inductive TransferEvent where
  | data : Nat → TransferEvent
  | error : String → TransferEvent
  | close : TransferEvent
deriving DecidableEq

/-- The event handlers installed by uploadFile (ssh-service.ts:1051-1091) and,
identically, by downloadFile (ssh-service.ts:1197-1235).  The Nat component
is the closure-local bytesTransferred counter (it is not reset by the close
handler, which writes stats.size into the record directly).
data:  bump the counter, copy it to the record, progress :=
       min(100, round(100*counter/size));
error: status failed, message recorded, endTime set;
close: status completed, progress 100, bytesTransferred := size, endTime set. -/
def transferStep (size : Nat) : Nat × FileTransferInfo → TransferEvent → Nat × FileTransferInfo
  | (lb, t), .data n =>
    let lb := lb + n
    (lb, { t with bytesTransferred := lb, progress := min 100 (jsRound100 lb size) })
  | (lb, t), .error m => (lb, { t with status := .failed, error := some m, ended := true })
  | (lb, t), .close =>
    (lb, { t with status := .completed, progress := 100, bytesTransferred := size,
                  ended := true })

/-- The record as it stands when streaming begins: created pending with zero
progress (ssh-service.ts:1018-1028), then flipped to in-progress just before
the pipe is connected (ssh-service.ts:1038). -/
def initialTransfer (dir : TransferDirection) (id lp rp : String) (size : Nat) :
    FileTransferInfo :=
  { id := id, localPath := lp, remotePath := rp, direction := dir,
    status := .inProgress, progress := 0, size := size, bytesTransferred := 0 }

/-- Run a trace of stream events over a transfer. -/
def runTransfer (size : Nat) (t0 : Nat × FileTransferInfo) (evts : List TransferEvent) :
    Nat × FileTransferInfo :=
  evts.foldl (transferStep size) t0

/-- No data event occurs in the trace. -/
def noDataEvents (evts : List TransferEvent) : Bool :=
  evts.all (fun e => match e with | .data _ => false | _ => true)

/-- Traces a Node stream pair can produce: data chunks are nonempty, and no
data arrives after an error (the erroring side is destroyed) or after close. -/
def validEvents : List TransferEvent → Bool
  | [] => true
  | .data n :: r => decide (0 < n) && validEvents r
  | _ :: r => noDataEvents r && validEvents r

/-- Total bytes delivered by the data events of a trace. -/
def sumData : List TransferEvent → Nat
  | [] => 0
  | .data n :: r => n + sumData r
  | _ :: r => sumData r

/-! ## Tunnel forwarder (ssh-service.ts:1405-1576) -/

/-- TunnelConfig. -/
structure TunnelConfig where
  id : Option String := none
  connectionId : String
  localPort : Nat
  remoteHost : String
  remotePort : Nat
  description : Option String := none
deriving DecidableEq

/-- One entry of the tunnels map: the config, whether the TCP server exists,
the live socket pairs (opaque handles) and the isActive flag. -/
structure TunnelRec where
  config : TunnelConfig
  hasServer : Bool
  connections : List Nat
  isActive : Bool
deriving DecidableEq

/-- The tunnels map of SSHService. -/
structure TunnelState where
  tunnels : List (String × TunnelRec)
deriving DecidableEq

/-- Is some active tunnel bound to this local port (the check at
ssh-service.ts:1418-1419). -/
def portInUse (ts : TunnelState) (p : Nat) : Bool :=
  ts.tunnels.any (fun kv => kv.2.config.localPort == p && kv.2.isActive)

/-- SSHService.closeTunnel (ssh-service.ts:1530-1569): a missing tunnel yields
false; otherwise every socket pair is destroyed and the set cleared, the
server's listeners are removed and it is closed, isActive is cleared and the
entry is deleted — the net effect on the map is removal of the entry. -/
def closeTunnel (ts : TunnelState) (tunnelId : String) : TunnelState × Bool :=
  match alGet ts.tunnels tunnelId with
  | none => (ts, false)
  | some _ => ({ tunnels := alRemove ts.tunnels tunnelId }, true)

/-- SSHService.createTunnel (ssh-service.ts:1405-1527).  connConnected is the
connection-registry check; freshId the md5-of-timestamp id used when the
config carries none; listen the outcome of server.listen (none = success,
some m = the server error, whose catch runs closeTunnel and rethrows).  The
record is inserted inactive before listening and activated in the listen
callback. -/
def createTunnel (ts : TunnelState) (connConnected : Bool) (cfg : TunnelConfig)
    (freshId : String) (listen : Option String) : TunnelState × Except String String :=
  if !connConnected then (ts, .error (notConnectedMsg cfg.connectionId))
  else
    let tunnelId := match cfg.id with
      | some i => if i = "" then freshId else i
      | none => freshId
    if portInUse ts cfg.localPort then
      (ts, .error ("本地端口 " ++ toString cfg.localPort ++ " 已被另一个隧道使用"))
    else
      let newRec : TunnelRec :=
        { config := { cfg with id := some tunnelId }, hasServer := true,
          connections := [], isActive := false }
      let ts1 : TunnelState := { tunnels := alSet ts.tunnels tunnelId newRec }
      match listen with
      | none =>
        ({ tunnels := alUpdate ts1.tunnels tunnelId (fun t =>
            { t with isActive := true }) }, .ok tunnelId)
      | some m => ((closeTunnel ts1 tunnelId).1, .error m)

/-- One createTunnel or closeTunnel call with its oracle inputs. -/
inductive TunnelOp where
  | create : Bool → TunnelConfig → String → Option String → TunnelOp
  | close : String → TunnelOp

/-- Apply one operation to the tunnels map. -/
def applyTunnelOp (ts : TunnelState) : TunnelOp → TunnelState
  | .create conn cfg fresh listen => (createTunnel ts conn cfg fresh listen).1
  | .close i => (closeTunnel ts i).1

/-- Run a sequence of tunnel operations from the empty map. -/
def runTunnelOps (ops : List TunnelOp) : TunnelState :=
  ops.foldl applyTunnelOp { tunnels := [] }

/-- No two active tunnels share a local port. -/
def TunnelPortsUnique (ts : TunnelState) : Prop :=
  ts.tunnels.Pairwise (fun a b =>
    a.2.isActive = true → b.2.isActive = true →
    a.2.config.localPort ≠ b.2.config.localPort)

/-! ## Tool dispatcher (part_000): output truncation and the executeCommand tool -/

/-- The elision marker inserted by SshMCP.limitOutputLength (part_000:2303). -/
def omittedMessage (omitted : Int) : String :=
  "\n\n... 已省略 " ++ toString omitted ++ " 个字符 ...\n" ++
  "如需查看完整输出，可添加以下参数：\n" ++
  "- 使用 > output.txt 将输出保存到文件\n" ++
  "- 使用 | head -n 数字 查看前几行\n" ++
  "- 使用 | tail -n 数字 查看后几行\n" ++
  "- 使用 | grep \"关键词\" 过滤包含特定内容的行\n\n"

/-- SshMCP.limitOutputLength (part_000:2289-2312): text of length at most
maxLength passes through; otherwise the first and last
floor(targetLength/2) characters are kept around the elision marker, whose
count is length - targetLength. -/
def limitOutputLength (text : String) (maxLength : Nat := 10000)
    (targetLength : Nat := 6000) : String :=
  if text.length ≤ maxLength then text
  else
    let halfTargetLength := targetLength / 2
    let front : String := ⟨text.data.take halfTargetLength⟩
    let tail : String := ⟨text.data.drop (text.length - halfTargetLength)⟩
    let omittedLength : Int := (text.length : Int) - (targetLength : Int)
    front ++ omittedMessage omittedLength ++ tail

/-- The probe commands issued by the tmux pre-flight of the executeCommand
tool handler (part_000:544-592). -/
def listPanesCmd (sess : String) : String :=
  "tmux list-panes -t " ++ sess ++ " -F \"#{pane_pid} #{pane_current_command}\""

def psStateCmd (pid : String) : String := "ps -o state= -p " ++ pid

def pgrepCmd (pid : String) : String := "pgrep -P " ++ pid

def psInfoCmd (pid : String) : String := "ps -o pid,ppid,stat,time,command -p " ++ pid

def capturePaneCmd (sess : String) : String :=
  "tmux capture-pane -p -t " ++ sess ++ " -S -10"

/-- The interactive programs blocked by /^(vim|nano|less|more|top|htop|man)$/
(part_000:571). -/
def interactiveBlockers : List String :=
  ["vim", "nano", "less", "more", "top", "htop", "man"]

/-- The warning text of the tmux_blocked result (part_000:598-607). -/
def blockedWarningText (sessionName panePid contextOut processOut : String) : String :=
  "警告: tmux会话 \"" ++ sessionName ++ "\" 当前有阻塞进程:\n\n" ++
  "当前会话上下文:\n" ++ contextOut ++ "\n\n" ++
  "进程信息:\n" ++ processOut ++ "\n\n" ++
  "建议操作:\n" ++
  "1. 如果是交互式程序(vim/nano等), 请先正常退出\n" ++
  "2. 如果是后台任务, 可以:\n" ++
  "   - 等待任务完成（执行 sleep <seconds> 命令进行等待）\n" ++
  "   - 使用 Ctrl+C (tmux send-keys -t " ++ sessionName ++ " C-c)\n" ++
  "   - 使用 kill -TERM " ++ panePid ++ " 终止进程\n\n" ++
  "为避免命令冲突, 本次操作已取消。如果确定要强制执行,请添加 force: true 参数。"

/-- Outcome of the modelled part of the executeCommand tool handler: an
isError text result produced before execution, or execution of the target
command (sent is the command passed to the service; the tmux output
enrichment that follows a successful execution is display-only and outside
the model). -/
inductive ToolOutcome where
  | errorText : String → ToolOutcome
  | executed : String → Except String CommandResult → ToolOutcome

/-- The pane view the handler extracts from the remote service, as read by
the tool layer (connection.name and connection.status). -/
structure ToolConnView where
  name : Option String
  status : ConnectionStatus
deriving DecidableEq

/-- The tmux pre-flight of the executeCommand tool handler (part_000:541-617),
entered when the command matches the send-keys pattern and force is not
set.  exec stands for this.sshService.executeCommand on the target
connection; a rejection anywhere inside the check is caught (part_000:614)
and the handler falls through to execution, returning none here.  The probe
short-circuiting mirrors the || evaluation order of isBlocked
(part_000:564-578): pgrep only runs when the state letter and the pane
command did not already decide blocking. -/
def tmuxPreflightInfo (exec : String → Except String CommandResult)
    (sessionName panePid : String) (tr : List String) :
    List String × Option String :=
  match exec (psInfoCmd panePid) with
  | .error _ => (tr ++ [psInfoCmd panePid], none)
  | .ok processInfo =>
    match exec (capturePaneCmd sessionName) with
    | .error _ => (tr ++ [psInfoCmd panePid, capturePaneCmd sessionName], none)
    | .ok contextOutput =>
      (tr ++ [psInfoCmd panePid, capturePaneCmd sessionName],
       some (blockedWarningText sessionName panePid contextOutput.stdout processInfo.stdout))

def tmuxPreflight (exec : String → Except String CommandResult)
    (sessionName : String) : List String × Option String :=
  match exec (listPanesCmd sessionName) with
  | .error _ => ([listPanesCmd sessionName], none)
  | .ok checkResult =>
    if checkResult.stdout = "" then ([listPanesCmd sessionName], none)
    else
      -- checkResult.stdout.trim().split(' ')
      let parts := (splitOnCharL ' ' (jsTrim checkResult.stdout).data).map
        (fun l => (⟨l⟩ : String))
      let panePid := parts.headD ""
      let currentCommand := parts[1]?
      if panePid = "" then ([listPanesCmd sessionName], none)
      else
        match exec (psStateCmd panePid) with
        | .error _ => ([listPanesCmd sessionName, psStateCmd panePid], none)
        | .ok processResult =>
          let processState := jsTrim processResult.stdout
          let cmdBlocked := match currentCommand with
            | some cc => interactiveBlockers.contains cc
            | none => false
          if processState = "D" || processState = "T" || processState = "W" ||
              cmdBlocked then
            tmuxPreflightInfo exec sessionName panePid
              [listPanesCmd sessionName, psStateCmd panePid]
          else
            match exec (pgrepCmd panePid) with
            | .error _ =>
              ([listPanesCmd sessionName, psStateCmd panePid, pgrepCmd panePid], none)
            | .ok pgrepResult =>
              if jsTrim pgrepResult.stdout ≠ "" then
                tmuxPreflightInfo exec sessionName panePid
                  [listPanesCmd sessionName, psStateCmd panePid, pgrepCmd panePid]
              else
                ([listPanesCmd sessionName, psStateCmd panePid, pgrepCmd panePid], none)

/-- The executeCommand tool handler of registerCommandTools (part_000:497-630)
up to and including the execution of the command; the tmux output
enrichment and truncation that follow operate on the produced output only.
sendKeysSession is the session name extracted by tmuxSendKeysRegex when the
test succeeds (the regex engine sits behind this parameter); exec stands
for this.sshService.executeCommand on connectionId.  Returns the updated
activeConnections map, the trace of commands passed to exec, and the
outcome. -/
def executeCommandToolPre (sendKeysSession : String → Option String)
    (exec : String → Except String CommandResult)
    (conn : Option ToolConnView) (active : List (String × Nat)) (now : Nat)
    (connectionId command : String) (force : Bool) :
    List (String × Nat) × List String × ToolOutcome :=
  match conn with
  | none => (active, [], .errorText ("错误: 连接 " ++ connectionId ++ " 不存在"))
  | some c =>
    if c.status ≠ ConnectionStatus.connected then
      (active, [],
       .errorText ("错误: 连接 " ++
         (match c.name with
          | some n => if n = "" then connectionId else n
          | none => connectionId) ++ " 未连接"))
    else
      let active' := alSet active connectionId now
      match sendKeysSession command, force with
      | some sessionName, false =>
        match tmuxPreflight exec sessionName with
        | (tr, some errText) => (active', tr, .errorText errText)
        | (tr, none) => (active', tr ++ [command], .executed command (exec command))
      | _, _ => (active', [command], .executed command (exec command))

/-- Wellformedness of a container-session entry, as established by every
setContainerContext call: the map key is connectionId:containerName, and the
working directory is a nonempty whitespace-free token (either the '/root'
default or a parsed -w token). -/
def wfSessionEntry (kv : String × ContainerSession) : Bool :=
  kv.1 == sessionKey kv.2.connectionId kv.2.containerName &&
  !(kv.2.workingDirectory == "") &&
  kv.2.workingDirectory.data.all (fun c => !jsWS c)

/-- Wellformedness of the service state (the part the executeCommand
termination argument needs). -/
def wfState (st : ServiceState) : Bool :=
  st.containerSessions.all wfSessionEntry

/-! ## Concrete fixtures used by the claim witnesses -/

/-- An oracle whose remote executions always resolve successfully. -/
def wExec : String → Except String CommandResult := fun _ => Except.ok ⟨"ok", "", 0⟩

/-- A fully successful environment. -/
def wEnv : Env :=
  { exec := wExec, credentialPassword := fun _ => none,
    credentialPassphrase := fun _ => none, transport := fun _ => none }

/-- A connected connection with a stored password, a live client and an old
lastUsed tick. -/
def wConn : SSHConnection :=
  { id := "cid", config := { host := "h", username := "u", password := some "p" },
    status := .connected, lastUsed := some 5, client := some 0 }

/-- A state holding just that connection and no container sessions. -/
def wSt : ServiceState :=
  { connections := [("cid", wConn)], containerSessions := [], now := 10, nextClient := 1 }

/-- The state after running the docker exec command of the C3 scenario. -/
def wSt1 : ServiceState :=
  (executeCommand wEnv 2 wSt "cid" "docker exec -w /srv -u www-data web ls").1

/-- A send-keys matcher recognising exactly the scenario command (standing for
tmuxSendKeysRegex, whose group 1 is the session name). -/
def wSendKeys : String → Option String :=
  fun c => if c = "tmux send-keys -t s ls Enter" then some "s" else none

/-- Remote probe results: the pane of session s runs vim under pid 1234 in
state S. -/
def wProbe : String → CommandResult := fun c =>
  if c = listPanesCmd "s" then ⟨"1234 vim", "", 0⟩
  else if c = psStateCmd "1234" then ⟨"S", "", 0⟩
  else ⟨"", "", 0⟩

/-- A digest function for the C1 witness. -/
def wHash : String → String := fun s => s

/-- The C1 witness config. -/
def wCfg : SSHConnectionConfig := { host := "h", username := "u", password := some "p" }

/-- An empty registry state. -/
def wStEmpty : ServiceState :=
  { connections := [], containerSessions := [], now := 0, nextClient := 0 }

/-- A 10001-character string for the C6 witness. -/
def wBig : String := ⟨List.replicate 10001 'a'⟩

/-- The connection record produced by the C1 witness scenario. -/
def wConn1 : SSHConnection :=
  { id := "u@h:22", name := some "u@h", config := wCfg,
    status := .connected, lastUsed := some 0, lastError := none,
    client := some 0, tags := none, currentDirectory := some "ok" }

/-- The registry state after the first connect of the C1 witness scenario. -/
def wStAfter : ServiceState :=
  { connections := [("u@h:22", wConn1)], containerSessions := [],
    now := 1, nextClient := 1 }

/-- A tunnel config bound to local port 8080. -/
def wTunnelCfg : TunnelConfig :=
  { connectionId := "c", localPort := 8080, remoteHost := "h", remotePort := 80 }

/-- A second config requesting the same local port. -/
def wTunnelCfg2 : TunnelConfig :=
  { connectionId := "c", localPort := 8080, remoteHost := "h2", remotePort := 81 }

/-- The tunnel map after one successful createTunnel on port 8080. -/
def wTs : TunnelState := runTunnelOps [TunnelOp.create true wTunnelCfg "t1" none]

/-- The record wTs stores under t1. -/
def wTunnelRec : TunnelRec :=
  { config := { wTunnelCfg with id := some "t1" }, hasServer := true,
    connections := [], isActive := true }

set_option maxRecDepth 10000

/-! ## Theorems: soundness of the derivative matcher -/

theorem nullable_of_matches_nil {r : RE} {s : List Char} (h : RE.Matches r s) :
    s = [] → r.nullable = true := by
  induction h with
  | eps => intro _; rfl
  | cpred hp => intro he; simp at he
  | cat ha hb iha ihb =>
    intro he
    rw [List.append_eq_nil] at he
    simp [RE.nullable, iha he.1, ihb he.2]
  | altL ha ih => intro he; simp [RE.nullable, ih he]
  | altR hb ih => intro he; simp [RE.nullable, ih he]
  | starNil => intro _; rfl
  | starCons _ _ _ _ => intro _; rfl

theorem matches_mkCat {a b : RE} {s t : List Char}
    (ha : RE.Matches a s) (hb : RE.Matches b t) :
    RE.Matches (mkCat a b) (s ++ t) := by
  cases a with
  | emp => cases ha
  | eps => cases ha; simpa using hb
  | cpred p => exact RE.Matches.cat ha hb
  | cat x y => exact RE.Matches.cat ha hb
  | alt x y => exact RE.Matches.cat ha hb
  | star x => exact RE.Matches.cat ha hb

theorem matches_mkAlt_left {a b : RE} {s : List Char}
    (h : RE.Matches a s) : RE.Matches (mkAlt a b) s := by
  cases a <;> cases b <;> first | exact h | exact RE.Matches.altL h | (cases h)

theorem matches_mkAlt_right {a b : RE} {s : List Char}
    (h : RE.Matches b s) : RE.Matches (mkAlt a b) s := by
  cases a <;> cases b <;> first | exact h | exact RE.Matches.altR h | (cases h)

theorem deriv_matches {r : RE} {u : List Char} (h : RE.Matches r u) :
    ∀ {c : Char} {s : List Char}, u = c :: s → RE.Matches (r.deriv c) s := by
  induction h with
  | eps => intro c s he; simp at he
  | @cpred p c0 hp =>
    intro c s he
    injection he with h1 h2
    subst h1
    rw [← h2]
    simp only [RE.deriv, hp, if_true]
    exact RE.Matches.eps
  | @cat a b s1 s2 ha hb iha ihb =>
    intro c s he
    cases s1 with
    | nil =>
      simp only [List.nil_append] at he
      have hb' := ihb he
      have hn : a.nullable = true := nullable_of_matches_nil ha rfl
      simp only [RE.deriv, hn, if_true]
      exact matches_mkAlt_right hb'
    | cons c1 t =>
      rw [List.cons_append] at he
      injection he with h1 h2
      subst h1
      have ha' : RE.Matches (a.deriv c1) t := iha rfl
      have hcat := matches_mkCat ha' hb
      rw [← h2]
      cases hn : a.nullable with
      | true =>
        simp only [RE.deriv, hn, if_true]
        exact matches_mkAlt_left hcat
      | false =>
        simp only [RE.deriv, hn, if_false]
        exact hcat
  | altL ha ih =>
    intro c s he
    simp only [RE.deriv]
    exact matches_mkAlt_left (ih he)
  | altR hb ih =>
    intro c s he
    simp only [RE.deriv]
    exact matches_mkAlt_right (ih he)
  | starNil => intro c s he; simp at he
  | @starCons a s1 s2 h1 h2 ih1 ih2 =>
    intro c s he
    cases s1 with
    | nil =>
      simp only [List.nil_append] at he
      exact ih2 he
    | cons c1 t =>
      rw [List.cons_append] at he
      injection he with hc ht
      subst hc
      have ha' : RE.Matches (a.deriv c1) t := ih1 rfl
      rw [← ht]
      simp only [RE.deriv]
      exact matches_mkCat ha' h2

theorem rmatch_of_matches : ∀ {s : List Char} {r : RE},
    RE.Matches r s → rmatch r s = true := by
  intro s
  induction s with
  | nil => intro r h; exact nullable_of_matches_nil h rfl
  | cons c cs ih =>
    intro r h
    have hd := deriv_matches h rfl
    simpa [rmatch] using ih hd

theorem matches_star_any : ∀ s : List Char, RE.Matches (RE.star reAny) s := by
  intro s
  induction s with
  | nil => exact RE.Matches.starNil
  | cons c cs ih => exact RE.Matches.starCons (RE.Matches.cpred rfl) ih

theorem matches_reLitCiL : ∀ l : List Char, RE.Matches (reLitCiL l) l := by
  intro l
  induction l with
  | nil => exact RE.Matches.eps
  | cons c cs ih =>
    exact RE.Matches.cat (RE.Matches.cpred (by simp [ciPred])) ih

theorem matches_star_cpred {p : Char → Bool} :
    ∀ {l : List Char}, (∀ c ∈ l, p c = true) → RE.Matches (.star (.cpred p)) l := by
  intro l
  induction l with
  | nil => exact fun _ => RE.Matches.starNil
  | cons c cs ih =>
    intro h
    exact RE.Matches.starCons (RE.Matches.cpred (h c (by simp)))
      (ih fun d hd => h d (by simp [hd]))

theorem matches_rePlus_cpred {p : Char → Bool} {l : List Char}
    (hne : l ≠ []) (h : ∀ c ∈ l, p c = true) :
    RE.Matches (rePlus (.cpred p)) l := by
  cases l with
  | nil => exact absurd rfl hne
  | cons c cs =>
    exact RE.Matches.cat (RE.Matches.cpred (h c (by simp)))
      (matches_star_cpred fun d hd => h d (by simp [hd]))

theorem jsDot_of_not_ws {c : Char} (h : jsWS c = false) : jsDot c = true := by
  have h1 : (c == '\n') = false := by
    by_contra hb
    simp only [Bool.not_eq_false] at hb
    simp [jsWS, hb] at h
  have h2 : (c == '\r') = false := by
    by_contra hb
    simp only [Bool.not_eq_false] at hb
    simp [jsWS, hb] at h
  have h3 : (c.toNat == 0x2028) = false := by
    by_contra hb
    simp only [Bool.not_eq_false] at hb
    simp [jsWS, hb] at h
  have h4 : (c.toNat == 0x2029) = false := by
    by_contra hb
    simp only [Bool.not_eq_false] at hb
    simp [jsWS, hb] at h
  simp [jsDot, h1, h2, h3, h4]

/-! ## Theorems: the wrapped container command never parses as regular -/

theorem matches_dockerExec_search (c0 : Char) (hc0 : jsWS c0 = false)
    (tail : List Char) :
    RE.Matches (reSearch dockerExecCore) ("docker exec -w ".data ++ c0 :: tail) := by
  have hdocker : RE.Matches (reLitCi "docker") "docker".data := matches_reLitCiL _
  have hexec : RE.Matches (reLitCi "exec") "exec".data := matches_reLitCiL _
  have hsp : RE.Matches (rePlus reWS) [' '] :=
    matches_rePlus_cpred (by simp) (by intro c hc; simp at hc; subst hc; decide)
  have hdashw : RE.Matches (rePlus reNonWS) ['-', 'w'] :=
    matches_rePlus_cpred (by simp)
      (by intro c hc; simp at hc; rcases hc with rfl | rfl <;> decide)
  have hdot : RE.Matches (rePlus reDot) [c0] :=
    matches_rePlus_cpred (by simp)
      (by intro c hc; simp at hc; subst hc; exact jsDot_of_not_ws hc0)
  have hcore' := RE.Matches.cat hdocker (RE.Matches.cat hsp (RE.Matches.cat hexec
    (RE.Matches.cat hsp (RE.Matches.cat (RE.Matches.starNil (a := dockerOptGroup))
      (RE.Matches.cat (RE.Matches.starNil (a := reWS)) (RE.Matches.cat hdashw
        (RE.Matches.cat hsp hdot)))))))
  have hcore : RE.Matches dockerExecCore ("docker exec -w ".data ++ [c0]) := hcore'
  have hfull' := RE.Matches.cat (RE.Matches.starNil (a := reAny))
    (RE.Matches.cat hcore (matches_star_any tail))
  exact hfull'

theorem isDockerExecCommand_of_decomp {s : String} {c0 : Char} {tail : List Char}
    (hd : s.data = "docker exec -w ".data ++ c0 :: tail) (hc0 : jsWS c0 = false) :
    isDockerExecCommand s = true := by
  unfold isDockerExecCommand
  rw [hd]
  exact rmatch_of_matches (matches_dockerExec_search c0 hc0 tail)

theorem jsTrimL_append_cons {P : List Char} {c0 : Char} (R : List Char)
    (hP : List.dropWhile jsWS (P ++ c0 :: R) = P ++ c0 :: R)
    (hc : jsWS c0 = false) :
    jsTrimL (P ++ c0 :: R) = P ++ c0 :: ((R.reverse.dropWhile jsWS).reverse) := by
  unfold jsTrimL
  rw [hP, List.reverse_append, List.reverse_cons, List.append_assoc,
    List.dropWhile_append]
  cases he : (R.reverse.dropWhile jsWS).isEmpty with
  | true =>
    rw [List.isEmpty_iff] at he
    simp [List.dropWhile_cons, hc, he]
  | false =>
    simp only [he, Bool.false_eq_true, if_false]
    simp [List.reverse_append]

theorem dropWhile_cons_of_neg {c : Char} {l : List Char} (h : jsWS c = false) :
    List.dropWhile jsWS (c :: l) = c :: l := by
  rw [List.dropWhile_cons]
  simp [h]

theorem foldl_env_data (l : List (String × String)) (e : String) :
    ∃ t : List Char,
      (l.foldl (fun e kv => e ++ " -e " ++ kv.1 ++ "=\"" ++ kv.2 ++ "\"") e).data
        = e.data ++ t := by
  induction l generalizing e with
  | nil => exact ⟨[], by simp⟩
  | cons kv rest ih =>
    obtain ⟨t, ht⟩ := ih (e ++ " -e " ++ kv.1 ++ "=\"" ++ kv.2 ++ "\"")
    refine ⟨(" -e " ++ kv.1 ++ "=\"" ++ kv.2 ++ "\"").data ++ t, ?_⟩
    rw [List.foldl_cons, ht]
    simp [String.data_append, List.append_assoc]

theorem build_wrapped_decomp (name cmd : String) (s : ContainerSession)
    (hwd : s.workingDirectory ≠ "") :
    ∃ t : List Char, (buildContainerExecCommand name cmd (some s) false).data
      = "docker exec -w ".data ++ s.workingDirectory.data ++ t := by
  unfold buildContainerExecCommand
  simp only [Bool.false_eq_true, if_false, if_neg hwd]
  set e3 : String :=
    (match s.user with
     | some u => if u = "" then "docker exec" ++ " -w " ++ s.workingDirectory
        else "docker exec" ++ " -w " ++ s.workingDirectory ++ " -u " ++ u
     | none => "docker exec" ++ " -w " ++ s.workingDirectory) with he3
  have he3d : ∃ t1 : List Char,
      e3.data = "docker exec -w ".data ++ s.workingDirectory.data ++ t1 := by
    rw [he3]
    cases s.user with
    | none => exact ⟨[], by simp [String.data_append, List.append_assoc]⟩
    | some u =>
      by_cases hu : u = ""
      · simp only [hu, if_pos rfl]
        exact ⟨[], by simp [String.data_append, List.append_assoc]⟩
      · simp only [if_neg hu]
        exact ⟨(" -u " ++ u).data, by simp [String.data_append, List.append_assoc]⟩
  obtain ⟨t1, ht1⟩ := he3d
  obtain ⟨t2, ht2⟩ := foldl_env_data s.environment e3
  refine ⟨t1 ++ t2 ++ (" " ++ name ++ " " ++ cmd).data, ?_⟩
  simp only [String.data_append, ht2, ht1]
  simp [String.data_append, List.append_assoc]

theorem parse_wrapped_not_regular (name cmd : String) (s : ContainerSession)
    (hwd : s.workingDirectory ≠ "")
    (hws : s.workingDirectory.data.all (fun c => !jsWS c) = true) :
    (parseCommand (buildContainerExecCommand name cmd (some s) false)).ptype
      ≠ ParsedType.regular := by
  obtain ⟨t, ht⟩ := build_wrapped_decomp name cmd s hwd
  obtain ⟨c0, wdRest, hwdd⟩ : ∃ c0 wdRest, s.workingDirectory.data = c0 :: wdRest := by
    cases hd : s.workingDirectory.data with
    | nil =>
      exact absurd (String.ext (hd.trans rfl)) hwd
    | cons a b => exact ⟨a, b, rfl⟩
  have hc0 : jsWS c0 = false := by
    have := List.all_eq_true.mp hws c0 (by rw [hwdd]; simp)
    simpa using this
  have hdata : (buildContainerExecCommand name cmd (some s) false).data
      = "docker exec -w ".data ++ c0 :: (wdRest ++ t) := by
    rw [ht, hwdd]
    simp [List.append_assoc]
  have hconsform : "docker exec -w ".data ++ c0 :: (wdRest ++ t)
      = 'd' :: ("ocker exec -w ".data ++ c0 :: (wdRest ++ t)) := rfl
  have hP : List.dropWhile jsWS ("docker exec -w ".data ++ c0 :: (wdRest ++ t))
      = "docker exec -w ".data ++ c0 :: (wdRest ++ t) := by
    rw [hconsform]
    exact dropWhile_cons_of_neg (by decide)
  have htrim : jsTrimL (buildContainerExecCommand name cmd (some s) false).data
      = "docker exec -w ".data ++ c0 :: (((wdRest ++ t).reverse.dropWhile jsWS).reverse) := by
    rw [hdata]
    exact jsTrimL_append_cons _ hP hc0
  have hdx : isDockerExecCommand
      (jsTrim (buildContainerExecCommand name cmd (some s) false)) = true := by
    exact isDockerExecCommand_of_decomp htrim hc0
  unfold parseCommand
  by_cases hcomp : isCompoundCommand
      (jsTrim (buildContainerExecCommand name cmd (some s) false)) = true
  · simp [hcomp, parseCompoundCommand]
  · simp [hcomp, hdx]

/-! ## Theorems: structural facts about the service model -/

theorem isNone_false_of_isSome {α : Type} {o : Option α} (h : o.isSome = true) :
    o.isNone = false := by
  cases o with
  | none => simp at h
  | some _ => rfl

theorem edcc_ok (env : Env) (st : ServiceState) (connectionId : String)
    (parsed : ParsedCommand) (conn : SSHConnection)
    (h : alGet st.connections connectionId = some conn)
    (hc : conn.client.isSome = true) :
    ∃ st' tr r, executeDockerContextCommand env st connectionId parsed
      = (st', tr, ExecOut.ok r) := by
  have hn := isNone_false_of_isSome hc
  unfold executeDockerContextCommand
  rw [h]
  simp only [hn, Bool.false_eq_true, if_false]
  repeat first
    | exact ⟨_, _, _, rfl⟩
    | split

theorem rest_not_fuelOut (env : Env) (st : ServiceState) (cid : String)
    (conn : SSHConnection) (cmd : String) (parsed : ParsedCommand) :
    (executeCommandRest env st cid conn cmd parsed).2.2 ≠ ExecOut.fuelOut := by
  unfold executeCommandRest
  repeat first
    | simp
    | split

theorem executeCommand_not_thrown {env : Env} {fuel : Nat} {st : ServiceState}
    {cid cmd : String} {conn : SSHConnection}
    (h : alGet st.connections cid = some conn)
    (hs : conn.status = ConnectionStatus.connected)
    (hc : conn.client.isSome = true) :
    ∀ m, (executeCommand env fuel st cid cmd).2.2 ≠ ExecOut.thrown m := by
  have hn := isNone_false_of_isSome hc
  cases fuel with
  | zero => intro m; simp [executeCommand]
  | succ k =>
    intro m
    unfold executeCommand
    rw [h]
    simp only [hn, hs, Bool.false_eq_true, false_or, if_false]
    rcases hb : executeCommandBody env (executeCommand env k) st cid cmd conn
      with ⟨st2, tr2, o⟩
    cases o <;> simp

theorem gac_foldl_mem {connId a : String} :
    ∀ (m : List (String × ContainerSession)) (b : Option String × Nat),
      (m.foldl (gacStep connId) b).1 = some a →
      b.1 = some a ∨ ∃ kv, kv ∈ m ∧ kv.2.connectionId = connId ∧
        kv.2.containerName = a ∧ kv.2.isActive = true := by
  intro m
  induction m with
  | nil => intro b hb; exact Or.inl hb
  | cons kv rest ih =>
    intro b hb
    rw [List.foldl_cons] at hb
    rcases ih _ hb with h1 | ⟨kv', hkv', hcn, hn, ha⟩
    · unfold gacStep at h1
      by_cases hcond : (kv.2.connectionId = connId && kv.2.isActive &&
          decide (b.2 < kv.2.lastActivity)) = true
      · rw [if_pos hcond] at h1
        simp only [Bool.and_eq_true, decide_eq_true_eq] at hcond
        simp only [Option.some.injEq] at h1
        exact Or.inr ⟨kv, by simp, hcond.1.1, h1, hcond.1.2⟩
      · rw [if_neg hcond] at h1
        exact Or.inl h1
    · exact Or.inr ⟨kv', by simp [hkv'], hcn, hn, ha⟩

theorem getActiveContainer_mem {m : List (String × ContainerSession)}
    {connId a : String} (h : getActiveContainer m connId = some a) :
    ∃ kv, kv ∈ m ∧ kv.2.connectionId = connId ∧
      kv.2.containerName = a ∧ kv.2.isActive = true := by
  unfold getActiveContainer at h
  rcases gac_foldl_mem m (none, 0) h with h1 | h2
  · simp at h1
  · exact h2

theorem alGet_of_mem_key {α : Type} :
    ∀ (m : List (String × α)) (k : String), (∃ v, (k, v) ∈ m) →
      ∃ v', alGet m k = some v' ∧ (k, v') ∈ m := by
  intro m
  induction m with
  | nil => intro k h; rcases h with ⟨v, hv⟩; simp at hv
  | cons kv rest ih =>
    intro k h
    rcases h with ⟨v, hv⟩
    unfold alGet
    by_cases hk : kv.1 = k
    · exact ⟨kv.2, by simp [hk], by rw [← hk]; simp⟩
    · rcases List.mem_cons.mp hv with h1 | h2
      · exact absurd (congrArg Prod.fst h1).symm hk
      · rcases ih k ⟨v, h2⟩ with ⟨v', hv', hm⟩
        exact ⟨v', by simp [hk, hv'], by simp [hm]⟩

theorem body_not_fuelOut_of_wrapped (env : Env) (st : ServiceState)
    (cid w1 : String) (conn : SSHConnection) (k : Nat)
    (h : alGet st.connections cid = some conn)
    (hs : conn.status = ConnectionStatus.connected)
    (hc : conn.client.isSome = true)
    (hnr : (parseCommand w1).ptype ≠ ParsedType.regular) :
    (executeCommand env (k + 1) st cid w1).2.2 ≠ ExecOut.fuelOut := by
  have hn := isNone_false_of_isSome hc
  unfold executeCommand
  rw [h]
  simp only [hn, hs, Bool.false_eq_true, false_or, if_false]
  rcases hb : executeCommandBody env (executeCommand env k) st cid w1 conn
    with ⟨st2, tr2, o⟩
  have hbody : o ≠ ExecOut.fuelOut := by
    intro hfo
    subst hfo
    unfold executeCommandBody at hb
    by_cases hcc : (parseCommand w1).needsContainerContext = true
    · rw [if_pos hcc] at hb
      obtain ⟨st', tr, r, he⟩ := edcc_ok env st cid (parseCommand w1) conn h hc
      rw [he] at hb
      simp at hb
    · rw [if_neg hcc] at hb
      rcases hgac : getActiveContainer st.containerSessions cid with _ | a
      · simp only [hgac] at hb
        exact rest_not_fuelOut env st cid conn w1 (parseCommand w1) (by rw [hb])
      · simp only [hgac] at hb
        by_cases hwrap : (decide (a ≠ "") &&
            decide ((parseCommand w1).ptype = ParsedType.regular)) = true
        · simp only [Bool.and_eq_true, decide_eq_true_eq] at hwrap
          exact hnr hwrap.2
        · rw [if_neg hwrap] at hb
          exact rest_not_fuelOut env st cid conn w1 (parseCommand w1) (by rw [hb])
  cases o with
  | ok r => simp
  | thrown m => simp
  | fuelOut => exact absurd rfl hbody

/-! ## Claim C10 -/

/-- C10: For every connection whose state is connected with a live client,
SSHService.executeCommand never rejects: with enough recursion fuel for the
one-level container re-entry (two levels always suffice on wellformed
states) the call returns a CommandResult, and any exception raised inside
the try-block (parse, remote execution, docker-context execution, or the
cd-triggered pwd refresh) is caught and resolved as a CommandResult with
empty stdout, the error message as stderr, and exit code 1. -/
theorem c10_executeCommand_never_rejects
    (env : Env) (k : Nat) (st : ServiceState) (cid cmd : String)
    (conn : SSHConnection)
    (h : alGet st.connections cid = some conn)
    (hs : conn.status = ConnectionStatus.connected)
    (hc : conn.client.isSome = true)
    (hwf : wfState st = true) :
    (∃ st' tr r, executeCommand env (k + 2) st cid cmd = (st', tr, ExecOut.ok r))
    ∧ (∀ st2 tr2 m,
        executeCommandBody env (executeCommand env (k + 1)) st cid cmd conn
          = (st2, tr2, ExecOut.thrown m) →
        executeCommand env (k + 2) st cid cmd = (st2, tr2, ExecOut.ok ⟨"", m, 1⟩)) := by
  have hn := isNone_false_of_isSome hc
  have hunfold : executeCommand env (k + 2) st cid cmd =
      match executeCommandBody env (executeCommand env (k + 1)) st cid cmd conn with
      | (st', tr, ExecOut.thrown m) => (st', tr, ExecOut.ok ⟨"", m, 1⟩)
      | (st', tr, o) => (st', tr, o) := by
    show executeCommand env (k + 1 + 1) st cid cmd = _
    unfold executeCommand
    rw [h]
    simp [hn, hs]
  constructor
  · rcases hb : executeCommandBody env (executeCommand env (k + 1)) st cid cmd conn
      with ⟨st2, tr2, o⟩
    cases o with
    | ok r => exact ⟨st2, tr2, r, by rw [hunfold, hb]⟩
    | thrown m => exact ⟨st2, tr2, ⟨"", m, 1⟩, by rw [hunfold, hb]⟩
    | fuelOut =>
      exfalso
      unfold executeCommandBody at hb
      by_cases hcc : (parseCommand cmd).needsContainerContext = true
      · rw [if_pos hcc] at hb
        obtain ⟨st', tr, r, he⟩ := edcc_ok env st cid (parseCommand cmd) conn h hc
        rw [he] at hb
        simp at hb
      · rw [if_neg hcc] at hb
        rcases hgac : getActiveContainer st.containerSessions cid with _ | a
        · simp only [hgac] at hb
          exact rest_not_fuelOut env st cid conn cmd (parseCommand cmd) (by rw [hb])
        · simp only [hgac] at hb
          by_cases hwrap : (decide (a ≠ "") &&
              decide ((parseCommand cmd).ptype = ParsedType.regular)) = true
          · rw [if_pos hwrap] at hb
            -- the wrapped command re-enters executeCommand at fuel k+1;
            -- on a wellformed state the wrap is not regular, so that call
            -- cannot run out of fuel
            obtain ⟨kv, hmem, hcn, hname, hact⟩ := getActiveContainer_mem hgac
            have hwfkv := List.all_eq_true.mp hwf kv hmem
            unfold wfSessionEntry at hwfkv
            simp only [Bool.and_eq_true, beq_iff_eq, Bool.not_eq_true'] at hwfkv
            have hkey : kv.1 = sessionKey cid a := by
              rw [hwfkv.1.1, hcn, hname]
            have hmem' : (sessionKey cid a, kv.2) ∈ st.containerSessions := by
              rw [← hkey]
              exact hmem
            obtain ⟨s', hget, hmem2⟩ :=
              alGet_of_mem_key st.containerSessions (sessionKey cid a) ⟨kv.2, hmem'⟩
            have hwfs' := List.all_eq_true.mp hwf _ hmem2
            unfold wfSessionEntry at hwfs'
            simp only [Bool.and_eq_true, beq_iff_eq, Bool.not_eq_true'] at hwfs'
            have hwdne : s'.workingDirectory ≠ "" := by
              intro hx
              rw [hx] at hwfs'
              simpa using hwfs'.1.2
            have hnr := parse_wrapped_not_regular a cmd s' hwdne hwfs'.2
            have hnotfuel := body_not_fuelOut_of_wrapped env st cid
              (buildContainerExecCommand a cmd
                (getContainerContextNamed st.containerSessions cid a) false)
              conn k h hs hc (by
                rw [show getContainerContextNamed st.containerSessions cid a = some s'
                  from hget]
                exact hnr)
            rw [show getContainerContextNamed st.containerSessions cid a = some s'
              from hget] at hnotfuel
            apply hnotfuel
            rw [show getContainerContextNamed st.containerSessions cid a = some s'
              from hget] at hb
            rw [hb]
          · rw [if_neg hwrap] at hb
            exact rest_not_fuelOut env st cid conn cmd (parseCommand cmd) (by rw [hb])
  · intro st2 tr2 m hb
    rw [hunfold, hb]

/-- Witness for C10 at a concrete connected state. -/
theorem c10_executeCommand_never_rejects_witness :
    wfState wSt = true ∧
    (∃ st' tr r, executeCommand wEnv (0 + 2) wSt "cid" "ls" = (st', tr, ExecOut.ok r)) :=
  ⟨by rfl,
   (c10_executeCommand_never_rejects wEnv 0 wSt "cid" "ls" wConn (by rfl)
      (by rfl) (by rfl) (by rfl)).1⟩

/-! ## Claim C1 -/

theorem alGet_alSet_self {α : Type} :
    ∀ (m : List (String × α)) (k : String) (v : α), alGet (alSet m k v) k = some v := by
  intro m
  induction m with
  | nil => intro k v; simp [alSet, alGet]
  | cons kv rest ih =>
    intro k v
    unfold alSet
    by_cases hk : kv.1 = k
    · simp [hk, alGet]
    · simp [hk, alGet, ih]

theorem connectAttempt_ok {env : Env} {st : ServiceState}
    {connectionId : String} {conn1 : SSHConnection} {cfg : SSHConnectionConfig}
    {isNew : Bool} {st₁ : ServiceState} {b : Bool} {c : SSHConnection}
    (h : connectAttempt env st connectionId conn1 cfg isNew = (st₁, b, ConnectRes.ok c)) :
    alGet st₁.connections connectionId = some c ∧
    c.status = ConnectionStatus.connected ∧ c.client.isSome = true := by
  simp only [connectAttempt] at h
  split at h
  · unfold connectFail at h
    simp at h
  · split at h
    · unfold connectFail at h
      simp at h
    · simp only [Prod.mk.injEq, ConnectRes.ok.injEq] at h
      obtain ⟨hst, _, hc⟩ := h
      subst hst
      subst hc
      refine ⟨?_, rfl, rfl⟩
      exact alGet_alSet_self _ _ _

theorem connect_ok_state {env : Env} {hash : String → String} {st : ServiceState}
    {cfg : SSHConnectionConfig} {nm : Option String} {tags : Option (List String)}
    {st₁ : ServiceState} {b : Bool} {c : SSHConnection}
    (h : connect env hash st cfg nm tags = (st₁, b, ConnectRes.ok c)) :
    alGet st₁.connections (generateConnectionId hash cfg) = some c ∧
    c.status = ConnectionStatus.connected ∧ c.client.isSome = true := by
  simp only [connect] at h
  split at h
  · rename_i conn0 hget
    split at h
    · rename_i hcond
      simp only [Bool.and_eq_true, decide_eq_true_eq] at hcond
      simp only [Prod.mk.injEq, ConnectRes.ok.injEq] at h
      obtain ⟨hst, _, hc⟩ := h
      subst hst
      subst hc
      exact ⟨hget, hcond.1, hcond.2⟩
    · exact connectAttempt_ok h
  · exact connectAttempt_ok h

/-- C1: the connection id is the deterministic digest of username@host:port
with the port defaulting to 22 (so two configs agreeing on those fields get
the same id), and if a connected record with a live client already exists
under that id, connect returns it with the state unchanged and no transport
attempted; hence connecting twice with the same config yields the same id and
at most one live client. -/
theorem c1_connection_id_and_single_client :
    (∀ (hash : String → String) (c1 c2 : SSHConnectionConfig),
        c1.username = c2.username → c1.host = c2.host → jsPort c1.port = jsPort c2.port →
        generateConnectionId hash c1 = generateConnectionId hash c2)
    ∧ (∀ (hash : String → String) (cfg : SSHConnectionConfig),
        generateConnectionId hash cfg =
          hash (cfg.username ++ "@" ++ cfg.host ++ ":" ++ toString (jsPort cfg.port)))
    ∧ (∀ (env : Env) (hash : String → String) (st : ServiceState)
          (cfg : SSHConnectionConfig) (nm : Option String) (tags : Option (List String))
          (conn : SSHConnection),
        alGet st.connections (generateConnectionId hash cfg) = some conn →
        conn.status = ConnectionStatus.connected → conn.client.isSome = true →
        connect env hash st cfg nm tags = (st, false, ConnectRes.ok conn))
    ∧ (∀ (env : Env) (hash : String → String) (st : ServiceState)
          (cfg : SSHConnectionConfig) (nm nm2 : Option String)
          (tags tags2 : Option (List String)) (st₁ : ServiceState) (b : Bool)
          (c : SSHConnection),
        connect env hash st cfg nm tags = (st₁, b, ConnectRes.ok c) →
        connect env hash st₁ cfg nm2 tags2 = (st₁, false, ConnectRes.ok c)) := by
  refine ⟨?_, ?_, ?_, ?_⟩
  · intro hash c1 c2 hu hh hp
    unfold generateConnectionId
    rw [hu, hh, hp]
  · intro hash cfg
    rfl
  · intro env hash st cfg nm tags conn hget hs hc
    simp only [connect, hget]
    simp [hs, hc]
  · intro env hash st cfg nm nm2 tags tags2 st₁ b c h
    obtain ⟨hget, hs, hc⟩ := connect_ok_state h
    simp only [connect, hget]
    simp [hs, hc]

/-- C1 witness: connecting to a fresh registry stores a connected record under
id u@h:22 (identity digest), and a second connect with the same config returns
that record with the state unchanged and no transport attempted. -/
theorem c1_connection_id_and_single_client_witness :
    connect wEnv wHash wStEmpty wCfg none none = (wStAfter, true, ConnectRes.ok wConn1) ∧
    connect wEnv wHash wStAfter wCfg none none = (wStAfter, false, ConnectRes.ok wConn1) ∧
    generateConnectionId wHash wCfg = "u@h:22" := by
  have h1 : connect wEnv wHash wStEmpty wCfg none none =
      (wStAfter, true, ConnectRes.ok wConn1) := by rfl
  exact ⟨h1,
    c1_connection_id_and_single_client.2.2.2 wEnv wHash wStEmpty wCfg none none none
      none wStAfter true wConn1 h1,
    by rfl⟩

/-! ## Claim C2 -/

theorem tmuxPreflight_blocked (f : String → CommandResult) (sess panePid : String)
    (parts : List String)
    (hparts : parts = (splitOnCharL ' ' (jsTrim (f (listPanesCmd sess)).stdout).data).map
        (fun l => (⟨l⟩ : String)))
    (hout : ¬ (f (listPanesCmd sess)).stdout = "")
    (hpiddef : panePid = parts.headD "")
    (hpid : ¬ panePid = "")
    (hblocked :
      jsTrim (f (psStateCmd panePid)).stdout = "D" ∨
      jsTrim (f (psStateCmd panePid)).stdout = "T" ∨
      jsTrim (f (psStateCmd panePid)).stdout = "W" ∨
      (∃ cc, parts[1]? = some cc ∧ cc ∈ interactiveBlockers) ∨
      ¬ jsTrim (f (pgrepCmd panePid)).stdout = "") :
    ∃ tr, tmuxPreflight (fun s => Except.ok (f s)) sess =
        (tr, some (blockedWarningText sess panePid
          (f (capturePaneCmd sess)).stdout (f (psInfoCmd panePid)).stdout)) ∧
      tr ⊆ [listPanesCmd sess, psStateCmd panePid, pgrepCmd panePid,
            psInfoCmd panePid, capturePaneCmd sess] := by
  unfold tmuxPreflight
  beta_reduce
  simp only []
  rw [← hparts, ← hpiddef, if_neg hout, if_neg hpid]
  split
  · exact ⟨_, rfl, by intro x hx; simp at hx; rcases hx with h | h | h | h <;> simp [h]⟩
  · rename_i hcond
    simp only [Bool.or_eq_true, decide_eq_true_eq, not_or] at hcond
    obtain ⟨⟨⟨hd, ht⟩, hw⟩, hcmd⟩ := hcond
    rcases hblocked with h | h | h | ⟨cc, hcc, hmem⟩ | h
    · exact absurd h hd
    · exact absurd h ht
    · exact absurd h hw
    · rw [hcc] at hcmd
      exact absurd (List.elem_eq_true_of_mem hmem) hcmd
    · rw [if_pos h]
      exact ⟨_, rfl, by intro x hx; simp at hx; rcases hx with h | h | h | h | h <;> simp [h]⟩

/-- C2: on an executeCommand tool call whose command matches the tmux
send-keys pattern for session sess, against a connected connection, when the
pane probe reports a nonempty pane line whose pid is in state D, T or W, or
whose current command is one of vim/nano/less/more/top/htop/man, or whose
pid has a child process, the handler with force unset returns the
tmux_blocked isError warning and only runs probe commands — never the
send-keys command itself — while with force set it executes the command
regardless of the probes. -/
theorem c2_tmux_blocked_preflight (sendKeysSession : String → Option String)
    (f : String → CommandResult) (cv : ToolConnView)
    (active : List (String × Nat)) (now : Nat)
    (connectionId command sess panePid : String) (parts : List String)
    (hsess : sendKeysSession command = some sess)
    (hstatus : cv.status = ConnectionStatus.connected)
    (hparts : parts = (splitOnCharL ' ' (jsTrim (f (listPanesCmd sess)).stdout).data).map
        (fun l => (⟨l⟩ : String)))
    (hout : ¬ (f (listPanesCmd sess)).stdout = "")
    (hpiddef : panePid = parts.headD "")
    (hpid : ¬ panePid = "")
    (hblocked :
      jsTrim (f (psStateCmd panePid)).stdout = "D" ∨
      jsTrim (f (psStateCmd panePid)).stdout = "T" ∨
      jsTrim (f (psStateCmd panePid)).stdout = "W" ∨
      (∃ cc, parts[1]? = some cc ∧ cc ∈ interactiveBlockers) ∨
      ¬ jsTrim (f (pgrepCmd panePid)).stdout = "")
    (hfresh : command ∉ [listPanesCmd sess, psStateCmd panePid, pgrepCmd panePid,
        psInfoCmd panePid, capturePaneCmd sess]) :
    (∃ tr, executeCommandToolPre sendKeysSession (fun s => Except.ok (f s)) (some cv)
        active now connectionId command false =
        (alSet active connectionId now, tr,
         ToolOutcome.errorText (blockedWarningText sess panePid
           (f (capturePaneCmd sess)).stdout (f (psInfoCmd panePid)).stdout)) ∧
       command ∉ tr) ∧
    executeCommandToolPre sendKeysSession (fun s => Except.ok (f s)) (some cv)
        active now connectionId command true =
      (alSet active connectionId now, [command],
       ToolOutcome.executed command (Except.ok (f command))) := by
  obtain ⟨tr, htr, hsub⟩ :=
    tmuxPreflight_blocked f sess panePid parts hparts hout hpiddef hpid hblocked
  constructor
  · refine ⟨tr, ?_, fun hm => hfresh (hsub hm)⟩
    simp only [executeCommandToolPre, hstatus, hsess, htr]
    simp
  · simp only [executeCommandToolPre, hstatus, hsess]
    simp

/-- C2 witness: a pane of session s runs vim under pid 1234 (state S, no
children); the blocked preflight cancels the send-keys command, and force
pushes it through. -/
theorem c2_tmux_blocked_preflight_witness :
    (∃ tr, executeCommandToolPre wSendKeys (fun s => Except.ok (wProbe s))
        (some ⟨some "sc", ConnectionStatus.connected⟩) [] 7 "cid"
        "tmux send-keys -t s ls Enter" false =
        ([("cid", 7)], tr,
         ToolOutcome.errorText (blockedWarningText "s" "1234"
           (wProbe (capturePaneCmd "s")).stdout (wProbe (psInfoCmd "1234")).stdout)) ∧
       "tmux send-keys -t s ls Enter" ∉ tr) ∧
    executeCommandToolPre wSendKeys (fun s => Except.ok (wProbe s))
        (some ⟨some "sc", ConnectionStatus.connected⟩) [] 7 "cid"
        "tmux send-keys -t s ls Enter" true =
      ([("cid", 7)], ["tmux send-keys -t s ls Enter"],
       ToolOutcome.executed "tmux send-keys -t s ls Enter"
         (Except.ok (wProbe "tmux send-keys -t s ls Enter"))) :=
  c2_tmux_blocked_preflight wSendKeys wProbe ⟨some "sc", ConnectionStatus.connected⟩
    [] 7 "cid" "tmux send-keys -t s ls Enter" "s" "1234" ["1234", "vim"]
    (by rfl) (by rfl) (by rfl) (by decide) (by rfl) (by decide)
    (Or.inr (Or.inr (Or.inr (Or.inl ⟨"vim", by rfl, by decide⟩))))
    (by decide)

/-! ## Claim C3 -/

theorem parse_regular_needsCC (cmd : String)
    (h : (parseCommand cmd).ptype = ParsedType.regular) :
    (parseCommand cmd).needsContainerContext = false := by
  by_cases h1 : isCompoundCommand (jsTrim cmd) = true
  · exfalso
    simp only [parseCommand, if_pos h1, parseCompoundCommand] at h
    cases h
  · simp only [parseCommand, if_neg h1]
    split
    · rfl
    · split
      · rfl
      · rfl

/-- C3: on a connection whose container context has an active container, a
command parsing as regular is re-entered through executeCommand wrapped into
that container's docker exec form, carrying the session's -w, -u and -e
options; and concretely, after docker exec -w /srv -u www-data web ls the
active container of the connection is web with workdir /srv and user
www-data, and the rewrite of a subsequent ls is exactly
docker exec -w /srv -u www-data web ls. -/
theorem c3_container_context_rewrite :
    (∀ (env : Env) (fuel : Nat) (st : ServiceState) (cid cmd : String)
        (conn : SSHConnection) (a : String),
      alGet st.connections cid = some conn →
      conn.status = ConnectionStatus.connected →
      conn.client.isSome = true →
      getActiveContainer st.containerSessions cid = some a →
      a ≠ "" →
      (parseCommand cmd).ptype = ParsedType.regular →
      executeCommand env (fuel + 1) st cid cmd =
        executeCommand env fuel st cid
          (buildContainerExecCommand a cmd
            (getContainerContextNamed st.containerSessions cid a) false))
    ∧ getActiveContainer wSt1.containerSessions "cid" = some "web"
    ∧ (getContainerContextNamed wSt1.containerSessions "cid" "web").map
        (fun s => (s.workingDirectory, s.user)) = some ("/srv", some "www-data")
    ∧ buildContainerExecCommand "web" "ls"
        (getContainerContextNamed wSt1.containerSessions "cid" "web") false =
      "docker exec -w /srv -u www-data web ls" := by
  refine ⟨?_, by decide, by decide, by decide⟩
  intro env fuel st cid cmd conn a h hs hc hgac ha hreg
  have hnone := isNone_false_of_isSome hc
  have hncc := parse_regular_needsCC cmd hreg
  have hbody : executeCommandBody env (executeCommand env fuel) st cid cmd conn =
      executeCommand env fuel st cid
        (buildContainerExecCommand a cmd
          (getContainerContextNamed st.containerSessions cid a) false) := by
    simp only [executeCommandBody, hncc, hgac]
    simp [ha, hreg]
  rcases hrec : executeCommand env fuel st cid
      (buildContainerExecCommand a cmd
        (getContainerContextNamed st.containerSessions cid a) false) with ⟨st', tr, o⟩
  simp only [executeCommand, h, hnone, hs]
  simp only [hbody, hrec]
  cases o with
  | thrown m =>
    exact absurd (by rw [hrec]) (executeCommand_not_thrown h hs hc m)
  | ok r => simp
  | fuelOut => simp

/-- C3 witness: in the state reached after docker exec -w /srv -u www-data
web ls, the rewrite fires on ls, re-entering the engine with the wrapped
command. -/
theorem c3_container_context_rewrite_witness :
    (parseCommand "ls").ptype = ParsedType.regular ∧
    executeCommand wEnv 2 wSt1 "cid" "ls" =
      executeCommand wEnv 1 wSt1 "cid"
        (buildContainerExecCommand "web" "ls"
          (getContainerContextNamed wSt1.containerSessions "cid" "web") false) :=
  ⟨by decide,
   c3_container_context_rewrite.1 wEnv 1 wSt1 "cid" "ls" wConn "web"
     (by decide) (by decide) (by decide) (by decide) (by decide) (by decide)⟩

/-! ## Claim C4 -/

theorem jsTrimL_head {c : Char} (l : List Char) (hc : jsWS c = false) :
    ∃ t, jsTrimL (c :: l) = c :: t := by
  unfold jsTrimL
  rw [dropWhile_cons_of_neg hc, List.reverse_cons, List.dropWhile_append]
  cases he : (l.reverse.dropWhile jsWS).isEmpty with
  | true => exact ⟨[], by simp [he, List.dropWhile_cons, hc]⟩
  | false => exact ⟨(List.dropWhile jsWS l.reverse).reverse, by simp [he]⟩

theorem echo_wrap_not_cd (p w : String) :
    strStartsWith (jsTrim ("echo \"" ++ p ++ "\" | " ++ w ++ " 2>/dev/null")) "cd "
      = false := by
  have hdata : ("echo \"" ++ p ++ "\" | " ++ w ++ " 2>/dev/null").data
      = 'e' :: ("cho \"".data ++ (p.data ++ ("\" | ".data ++
          (w.data ++ " 2>/dev/null".data)))) := by
    simp [String.data_append]
  show charsStartsWith (jsTrimL ("echo \"" ++ p ++ "\" | " ++ w ++ " 2>/dev/null").data)
      "cd ".data = false
  rw [hdata]
  obtain ⟨t, ht⟩ := jsTrimL_head ("cho \"".data ++ (p.data ++ ("\" | ".data ++
    (w.data ++ " 2>/dev/null".data)))) (by decide : jsWS 'e' = false)
  rw [ht]
  simp [charsStartsWith]

/-- C4 counterexample: a;sudo id has a sudo token at a word boundary (the
\b-replace would rewrite it) and the stored password p is available, yet the
engine leaves the command untouched, because its trigger is only
trim-startsWith "sudo " or includes " sudo ". -/
theorem c4_counterexample :
    jsReplaceWordSudo "a;sudo id" = "a;sudo -S id" ∧
    sudoRewrite wEnv wConn "a;sudo id" = "a;sudo id" ∧
    (executeCommand wEnv 1 wSt "cid" "a;sudo id").2.1 = ["a;sudo id"] := by
  refine ⟨by decide, by decide, by decide⟩

/-- C4 (amended): executeCommand applies the sudo rewrite exactly when the
trimmed command starts with "sudo " or the command contains " sudo "
(not for every word-boundary sudo token); when that trigger holds and the
connection stores a nonempty password, each word-boundary sudo occurrence
becomes sudo -S and the executed command is
echo "<password>" | <rewritten> 2>/dev/null; in particular sudo -n id with
stored password p executes as echo "p" | sudo -S -n id 2>/dev/null. -/
theorem c4_sudo_rewrite :
    (∀ (env : Env) (st : ServiceState) (cid cmd : String) (conn : SSHConnection)
        (p : String),
      alGet st.connections cid = some conn →
      conn.status = ConnectionStatus.connected →
      conn.client.isSome = true →
      (strStartsWith (jsTrim cmd) "sudo " = true ∨ strContains cmd " sudo " = true) →
      conn.config.password = some p →
      p ≠ "" →
      (parseCommand cmd).needsContainerContext = false →
      getActiveContainer st.containerSessions cid = none →
      sudoRewrite env conn cmd =
        "echo \"" ++ p ++ "\" | " ++ jsReplaceWordSudo cmd ++ " 2>/dev/null" ∧
      ∃ st' o, executeCommand env 1 st cid cmd =
        (st', ["echo \"" ++ p ++ "\" | " ++ jsReplaceWordSudo cmd ++ " 2>/dev/null"], o))
    ∧ jsReplaceWordSudo "sudo -n id" = "sudo -S -n id"
    ∧ sudoRewrite wEnv wConn "sudo -n id" = "echo \"p\" | sudo -S -n id 2>/dev/null" := by
  refine ⟨?_, by decide, by decide⟩
  intro env st cid cmd conn p h hs hc htrig hpw hp hncc hgac
  have hnone := isNone_false_of_isSome hc
  have hcmd2 : sudoRewrite env conn cmd =
      "echo \"" ++ p ++ "\" | " ++ jsReplaceWordSudo cmd ++ " 2>/dev/null" := by
    unfold sudoRewrite
    have hcond : (strStartsWith (jsTrim cmd) "sudo " || strContains cmd " sudo ")
        = true := by
      rcases htrig with h1 | h1 <;> simp [h1]
    rw [if_pos hcond]
    simp only [hpw]
    simp [hp]
  refine ⟨hcmd2, ?_⟩
  have hbody : ∃ stB oB,
      executeCommandBody env (executeCommand env 0) st cid cmd conn =
        (stB, ["echo \"" ++ p ++ "\" | " ++ jsReplaceWordSudo cmd ++ " 2>/dev/null"],
         oB) := by
    simp only [executeCommandBody, hncc, hgac]
    simp only [executeCommandRest, hcmd2]
    cases hex : env.exec ("echo \"" ++ p ++ "\" | " ++ jsReplaceWordSudo cmd ++
        " 2>/dev/null") with
    | error m => exact ⟨st, .thrown m, by simp⟩
    | ok r =>
      simp only [echo_wrap_not_cd, Bool.false_eq_true, if_false]
      exact ⟨_, _, rfl⟩
  obtain ⟨stB, oB, hB⟩ := hbody
  simp only [executeCommand] at hB
  simp only [executeCommand, h, hnone, hs, hB]
  cases oB with
  | thrown m => exact ⟨stB, _, rfl⟩
  | ok r => exact ⟨stB, _, rfl⟩
  | fuelOut => exact ⟨stB, _, rfl⟩

/-- C4 witness: sudo -n id against the stored password p executes as
echo "p" | sudo -S -n id 2>/dev/null. -/
theorem c4_sudo_rewrite_witness :
    ∃ st' o, executeCommand wEnv 1 wSt "cid" "sudo -n id" =
      (st', ["echo \"p\" | sudo -S -n id 2>/dev/null"], o) := by
  obtain ⟨-, st', o, hh⟩ := c4_sudo_rewrite.1 wEnv wSt "cid" "sudo -n id" wConn "p"
    (by decide) (by decide) (by decide) (Or.inl (by decide)) (by decide) (by decide)
    (by decide) (by decide)
  rw [show ("echo \"" ++ "p" ++ "\" | " ++ jsReplaceWordSudo "sudo -n id" ++
      " 2>/dev/null") = "echo \"p\" | sudo -S -n id 2>/dev/null" from by decide] at hh
  exact ⟨st', o, hh⟩

/-! ## Claim C5 -/

theorem compoundLoop_flag (parts : List String) :
    (compoundLoop parts).2.2 = !(compoundLoop parts).1.isEmpty := by
  induction parts with
  | nil => rfl
  | cons p rest ih =>
    simp only [compoundLoop]
    split
    · exact ih
    · split
      · split
        · simp
        · exact ih
      · exact ih

/-- C5 counterexample: a ; inside double quotes still splits the line:
echo "a;b" parses as compound with the two regular segments echo "a and b"
(and no container need), though the claim says separators inside quotes do
not split. -/
theorem c5_counterexample :
    (parseCommand "echo \"a;b\"").ptype = ParsedType.compound ∧
    (parseCommand "echo \"a;b\"").regularCommands = ["echo \"a", "b\""] ∧
    (parseCommand "echo \"a;b\"").needsContainerContext = false := by
  refine ⟨by decide, by decide, by decide⟩

/-- C5 (amended): the parser classifies a line as compound exactly when it
contains &&, || or ; anywhere — quoted or not — after trimming; each
segment of the split on \s*(&&|pipes|;)\s* is re-parsed, and
needsContainerContext holds exactly when some segment parsed as docker exec
and some segment is regular. -/
theorem c5_compound_split :
    (∀ cmd, (parseCommand cmd).ptype = ParsedType.compound ↔
        isCompoundCommand (jsTrim cmd) = true)
    ∧ (∀ cmd, (parseCommand cmd).ptype = ParsedType.compound →
        ((parseCommand cmd).needsContainerContext = true ↔
          (parseCommand cmd).dockerCommands ≠ [] ∧
          (parseCommand cmd).regularCommands ≠ [])) := by
  constructor
  · intro cmd
    constructor
    · intro h
      by_cases hcc : isCompoundCommand (jsTrim cmd) = true
      · exact hcc
      · exfalso
        simp only [parseCommand, if_neg hcc] at h
        split at h
        · cases h
        · split at h
          · cases h
          · cases h
    · intro hcc
      simp only [parseCommand, if_pos hcc, parseCompoundCommand]
  · intro cmd hco
    by_cases hcc : isCompoundCommand (jsTrim cmd) = true
    · simp only [parseCommand, if_pos hcc, parseCompoundCommand]
      rw [compoundLoop_flag]
      simp [List.isEmpty_iff]
    · exfalso
      simp only [parseCommand, if_neg hcc] at hco
      split at hco
      · cases hco
      · split at hco
        · cases hco
        · cases hco

/-- C5 witness: docker exec web ls; pwd is compound and needs container
context (one docker exec segment, one regular segment). -/
theorem c5_compound_split_witness :
    ((parseCommand "docker exec web ls; pwd").ptype = ParsedType.compound ↔
      isCompoundCommand (jsTrim "docker exec web ls; pwd") = true) ∧
    ((parseCommand "docker exec web ls; pwd").needsContainerContext = true ↔
      (parseCommand "docker exec web ls; pwd").dockerCommands ≠ [] ∧
      (parseCommand "docker exec web ls; pwd").regularCommands ≠ []) :=
  ⟨c5_compound_split.1 "docker exec web ls; pwd",
   c5_compound_split.2 "docker exec web ls; pwd" (by decide)⟩

/-! ## Claim C6 -/

/-- C6: text of length at most 10000 passes through the output truncator
unchanged; longer text becomes its first 3000 characters, the elision
marker mentioning the omitted count (length - 6000), and its last 3000
characters. -/
theorem c6_limit_output (s : String) :
    (s.length ≤ 10000 → limitOutputLength s = s) ∧
    (10000 < s.length →
      limitOutputLength s =
        (⟨s.data.take 3000⟩ : String) ++
          omittedMessage ((s.length : Int) - 6000) ++
          (⟨s.data.drop (s.length - 3000)⟩ : String) ∧
      ∃ a b, omittedMessage ((s.length : Int) - 6000) =
        a ++ toString ((s.length : Int) - 6000) ++ b) := by
  constructor
  · intro h
    simp only [limitOutputLength, if_pos h]
  · intro h
    refine ⟨?_, ?_⟩
    · simp only [limitOutputLength, if_neg (not_le.mpr h)]
      norm_num
    · exact ⟨"\n\n... 已省略 ",
        " 个字符 ...\n" ++
        "如需查看完整输出，可添加以下参数：\n" ++
        "- 使用 > output.txt 将输出保存到文件\n" ++
        "- 使用 | head -n 数字 查看前几行\n" ++
        "- 使用 | tail -n 数字 查看后几行\n" ++
        "- 使用 | grep \"关键词\" 过滤包含特定内容的行\n\n",
        by simp [omittedMessage, String.append_assoc]⟩

/-- C6 witness: a 10001-character string keeps its first and last 3000
characters around a marker counting 4001 omitted characters. -/
theorem c6_limit_output_witness :
    10000 < wBig.length ∧
    limitOutputLength wBig =
      (⟨wBig.data.take 3000⟩ : String) ++ omittedMessage 4001 ++
        (⟨wBig.data.drop (wBig.length - 3000)⟩ : String) := by
  have hlen : wBig.length = 10001 := by
    show (List.replicate 10001 'a').length = 10001
    exact List.length_replicate _ _
  have h : 10000 < wBig.length := by omega
  refine ⟨h, ?_⟩
  have hmain := (c6_limit_output wBig).2 h
  rw [hmain.1, hlen]
  norm_num

/-! ## Claim C7 -/

theorem jsRound100_mono (size : Nat) {b1 b2 : Nat} (h : b1 ≤ b2) :
    jsRound100 b1 size ≤ jsRound100 b2 size :=
  Nat.div_le_div_right (by omega)

theorem jsRound100_self {s : Nat} (hs : 0 < s) : jsRound100 s s = 100 := by
  unfold jsRound100
  have h2 : 200 * s + s = s + 2 * s * 100 := by ring
  rw [h2, Nat.add_mul_div_left _ _ (by omega : 0 < 2 * s),
    Nat.div_eq_of_lt (by omega)]

theorem jsRound100_zero {s : Nat} (hs : 0 < s) : jsRound100 0 s = 0 := by
  unfold jsRound100
  rw [Nat.div_eq_of_lt (by omega)]

theorem noData_append_left {p q : List TransferEvent}
    (h : noDataEvents (p ++ q) = true) : noDataEvents p = true := by
  simp only [noDataEvents, List.all_append, Bool.and_eq_true] at h
  exact h.1

theorem noData_append_right {p q : List TransferEvent}
    (h : noDataEvents (p ++ q) = true) : noDataEvents q = true := by
  simp only [noDataEvents, List.all_append, Bool.and_eq_true] at h
  exact h.2

theorem validEvents_suffix :
    ∀ p q : List TransferEvent, validEvents (p ++ q) = true → validEvents q = true := by
  intro p
  induction p with
  | nil => intro q h; simpa using h
  | cons e rest ih =>
    intro q h
    cases e with
    | data n =>
      simp only [List.cons_append, validEvents, Bool.and_eq_true] at h
      exact ih q h.2
    | error m =>
      simp only [List.cons_append, validEvents, Bool.and_eq_true] at h
      exact ih q h.2
    | close =>
      simp only [List.cons_append, validEvents, Bool.and_eq_true] at h
      exact ih q h.2

theorem validEvents_front :
    ∀ p q : List TransferEvent, validEvents (p ++ q) = true → validEvents p = true := by
  intro p
  induction p with
  | nil => intro q h; rfl
  | cons e rest ih =>
    intro q h
    cases e with
    | data n =>
      simp only [List.cons_append, validEvents, Bool.and_eq_true] at h ⊢
      exact ⟨h.1, ih q h.2⟩
    | error m =>
      simp only [List.cons_append, validEvents, Bool.and_eq_true] at h ⊢
      exact ⟨noData_append_left h.1, ih q h.2⟩
    | close =>
      simp only [List.cons_append, validEvents, Bool.and_eq_true] at h ⊢
      exact ⟨noData_append_left h.1, ih q h.2⟩

theorem sumData_append :
    ∀ p q : List TransferEvent, sumData (p ++ q) = sumData p + sumData q := by
  intro p
  induction p with
  | nil => intro q; simp [sumData]
  | cons e rest ih =>
    intro q
    cases e with
    | data n => simp only [List.cons_append, sumData, List.append_eq, ih]; omega
    | error m => simp only [List.cons_append, sumData, List.append_eq, ih]
    | close => simp only [List.cons_append, sumData, List.append_eq, ih]

theorem run_ended_noData (size : Nat) :
    ∀ (p q : List TransferEvent) (lb : Nat) (t : FileTransferInfo),
      validEvents (p ++ q) = true → t.ended = false →
      (runTransfer size (lb, t) p).2.ended = true → noDataEvents q = true := by
  intro p
  induction p with
  | nil =>
    intro q lb t _ he hr
    simp only [runTransfer, List.foldl_nil] at hr
    simp [he] at hr
  | cons e rest ih =>
    intro q lb t hval he hr
    cases e with
    | data n =>
      simp only [List.cons_append, validEvents, Bool.and_eq_true] at hval
      simp only [runTransfer, List.foldl_cons, transferStep] at hr
      exact ih q (lb + n) _ hval.2 (by simpa using he) hr
    | error m =>
      simp only [List.cons_append, validEvents, Bool.and_eq_true] at hval
      exact noData_append_right hval.1
    | close =>
      simp only [List.cons_append, validEvents, Bool.and_eq_true] at hval
      exact noData_append_right hval.1

theorem transferWalk (size : Nat) :
    ∀ (evts : List TransferEvent) (lb : Nat) (t : FileTransferInfo),
      validEvents evts = true →
      lb + sumData evts ≤ size →
      t.bytesTransferred ≤ size →
      t.progress ≤ 100 →
      (0 < size → t.progress = min 100 (jsRound100 t.bytesTransferred size)) →
      (t.status = TransferStatus.completed → t.bytesTransferred = size) →
      (t.bytesTransferred = lb ∨ (noDataEvents evts = true ∧ t.ended = true)) →
      (runTransfer size (lb, t) evts).1 = lb + sumData evts ∧
      (runTransfer size (lb, t) evts).2.bytesTransferred ≤ size ∧
      (runTransfer size (lb, t) evts).2.progress ≤ 100 ∧
      (0 < size → (runTransfer size (lb, t) evts).2.progress =
        min 100 (jsRound100 (runTransfer size (lb, t) evts).2.bytesTransferred size)) ∧
      ((runTransfer size (lb, t) evts).2.status = TransferStatus.completed →
        (runTransfer size (lb, t) evts).2.bytesTransferred = size) ∧
      t.progress ≤ (runTransfer size (lb, t) evts).2.progress ∧
      ((runTransfer size (lb, t) evts).2.bytesTransferred =
          (runTransfer size (lb, t) evts).1 ∨
        (runTransfer size (lb, t) evts).2.ended = true) := by
  intro evts
  induction evts with
  | nil =>
    intro lb t hval hsum hb hp hf hcomp hlb
    simp only [runTransfer, List.foldl_nil, sumData]
    refine ⟨by omega, hb, hp, hf, hcomp, le_refl _, ?_⟩
    rcases hlb with h | ⟨_, h⟩
    · exact Or.inl h
    · exact Or.inr h
  | cons e rest ih =>
    intro lb t hval hsum hb hp hf hcomp hlb
    cases e with
    | data n =>
      simp only [validEvents, Bool.and_eq_true, decide_eq_true_eq] at hval
      obtain ⟨hn, hvr⟩ := hval
      have hsum2 : lb + (n + sumData rest) ≤ size := by
        simpa only [sumData] using hsum
      have hbl : t.bytesTransferred = lb := by
        rcases hlb with h | ⟨hnd, _⟩
        · exact h
        · exfalso; simp [noDataEvents] at hnd
      have hszpos : 0 < size := by omega
      rw [show runTransfer size (lb, t) (TransferEvent.data n :: rest) =
        runTransfer size (lb + n,
          { t with bytesTransferred := lb + n,
                   progress := min 100 (jsRound100 (lb + n) size) }) rest from rfl]
      have hres := ih (lb + n)
        { t with bytesTransferred := lb + n,
                 progress := min 100 (jsRound100 (lb + n) size) }
        hvr (by omega) (by simp; omega) (by simp)
        (fun _ => by simp)
        (by intro hst
            exfalso
            simp only at hst
            have h1 := hcomp hst
            rw [hbl] at h1
            omega)
        (Or.inl (by simp))
      refine ⟨?_, hres.2.1, hres.2.2.1, hres.2.2.2.1, hres.2.2.2.2.1, ?_,
        hres.2.2.2.2.2.2⟩
      · rw [hres.1]; simp only [sumData]; omega
      · have hstep : t.progress ≤ min 100 (jsRound100 (lb + n) size) := by
          rw [hf hszpos, hbl]
          exact min_le_min (le_refl _) (jsRound100_mono size (Nat.le_add_right lb n))
        exact le_trans hstep (by simpa using hres.2.2.2.2.2.1)
    | error m =>
      simp only [validEvents, Bool.and_eq_true] at hval
      obtain ⟨hnd, hvr⟩ := hval
      have hsum2 : lb + sumData rest ≤ size := by
        simpa only [sumData] using hsum
      rw [show runTransfer size (lb, t) (TransferEvent.error m :: rest) =
        runTransfer size (lb,
          { t with status := TransferStatus.failed, error := some m,
                   ended := true }) rest from rfl]
      have hres := ih lb
        { t with status := TransferStatus.failed, error := some m, ended := true }
        hvr hsum2 (by simpa using hb) (by simpa using hp)
        (by intro hs; simpa using hf hs)
        (by intro hst; simp at hst)
        (by rcases hlb with h | ⟨_, _⟩
            · exact Or.inl (by simpa using h)
            · exact Or.inr ⟨hnd, by simp⟩)
      refine ⟨by rw [hres.1]; simp only [sumData], hres.2.1, hres.2.2.1,
        hres.2.2.2.1, hres.2.2.2.2.1, ?_, hres.2.2.2.2.2.2⟩
      exact le_trans (le_of_eq (by simp)) hres.2.2.2.2.2.1
    | close =>
      simp only [validEvents, Bool.and_eq_true] at hval
      obtain ⟨hnd, hvr⟩ := hval
      have hsum2 : lb + sumData rest ≤ size := by
        simpa only [sumData] using hsum
      rw [show runTransfer size (lb, t) (TransferEvent.close :: rest) =
        runTransfer size (lb,
          { t with status := TransferStatus.completed, progress := 100,
                   bytesTransferred := size, ended := true }) rest from rfl]
      have hres := ih lb
        { t with status := TransferStatus.completed, progress := 100,
                 bytesTransferred := size, ended := true }
        hvr hsum2 (by simp) (by simp)
        (by intro hs; simp [jsRound100_self hs])
        (by intro _; simp)
        (Or.inr ⟨hnd, by simp⟩)
      refine ⟨by rw [hres.1]; simp only [sumData], hres.2.1, hres.2.2.1,
        hres.2.2.2.1, hres.2.2.2.2.1, ?_, hres.2.2.2.2.2.2⟩
      have h100 : t.progress ≤ 100 := hp
      exact le_trans h100 (by simpa using hres.2.2.2.2.2.1)

/-- C7: along any valid stream trace delivering at most size bytes, the
transfer record keeps 0 <= progress <= 100 with progress equal to
round(100*bytesTransferred/size) capped at 100, bytesTransferred never
exceeds size, progress never decreases from any prefix of the trace to the
whole trace, completed status forces bytesTransferred = size, and the
progress formula is monotone in bytesTransferred. -/
theorem c7_transfer_invariants (size : Nat) (dir : TransferDirection)
    (id lp rp : String) (p q : List TransferEvent)
    (hval : validEvents (p ++ q) = true)
    (hsum : sumData (p ++ q) ≤ size) :
    0 ≤ (runTransfer size (0, initialTransfer dir id lp rp size) (p ++ q)).2.progress ∧
    (runTransfer size (0, initialTransfer dir id lp rp size) (p ++ q)).2.progress ≤ 100 ∧
    (runTransfer size (0, initialTransfer dir id lp rp size) (p ++ q)).2.bytesTransferred
      ≤ size ∧
    (0 < size →
      (runTransfer size (0, initialTransfer dir id lp rp size) (p ++ q)).2.progress =
        min 100 (jsRound100
          (runTransfer size (0, initialTransfer dir id lp rp size)
            (p ++ q)).2.bytesTransferred size)) ∧
    ((runTransfer size (0, initialTransfer dir id lp rp size) (p ++ q)).2.status =
        TransferStatus.completed →
      (runTransfer size (0, initialTransfer dir id lp rp size)
        (p ++ q)).2.bytesTransferred = size) ∧
    (runTransfer size (0, initialTransfer dir id lp rp size) p).2.progress ≤
      (runTransfer size (0, initialTransfer dir id lp rp size) (p ++ q)).2.progress ∧
    (∀ b1 b2, b1 ≤ b2 →
      min 100 (jsRound100 b1 size) ≤ min 100 (jsRound100 b2 size)) := by
  have hinit0 : (initialTransfer dir id lp rp size).bytesTransferred = 0 := rfl
  have hwalkP := transferWalk size p 0 (initialTransfer dir id lp rp size)
    (validEvents_front p q hval)
    (by have := sumData_append p q; omega)
    (by rw [hinit0]; exact Nat.zero_le _)
    (Nat.zero_le _)
    (fun hs => by
      rw [hinit0]
      show (0 : Nat) = min 100 (jsRound100 0 size)
      rw [jsRound100_zero hs]
      simp)
    (by intro h; cases h)
    (Or.inl hinit0)
  have hq : runTransfer size (0, initialTransfer dir id lp rp size) (p ++ q) =
      runTransfer size (runTransfer size (0, initialTransfer dir id lp rp size) p) q := by
    simp [runTransfer, List.foldl_append]
  have hlbq : (runTransfer size (0, initialTransfer dir id lp rp size) p).2.bytesTransferred
        = (runTransfer size (0, initialTransfer dir id lp rp size) p).1 ∨
      (noDataEvents q = true ∧
        (runTransfer size (0, initialTransfer dir id lp rp size) p).2.ended = true) := by
    rcases hwalkP.2.2.2.2.2.2 with h | h
    · exact Or.inl h
    · exact Or.inr ⟨run_ended_noData size p q 0 (initialTransfer dir id lp rp size)
        hval rfl h, h⟩
  have hwalkQ := transferWalk size q
    (runTransfer size (0, initialTransfer dir id lp rp size) p).1
    (runTransfer size (0, initialTransfer dir id lp rp size) p).2
    (validEvents_suffix p q hval)
    (by rw [hwalkP.1]; have := sumData_append p q; omega)
    hwalkP.2.1 hwalkP.2.2.1 hwalkP.2.2.2.1 hwalkP.2.2.2.2.1 hlbq
  rw [hq]
  refine ⟨Nat.zero_le _, ?_, ?_, ?_, ?_, ?_, ?_⟩
  · exact hwalkQ.2.2.1
  · exact hwalkQ.2.1
  · exact hwalkQ.2.2.2.1
  · exact hwalkQ.2.2.2.2.1
  · exact hwalkQ.2.2.2.2.2.1
  · intro b1 b2 hb
    exact min_le_min (le_refl _) (jsRound100_mono size hb)

/-- C7 witness: a 10-byte upload receiving 4 then 6 bytes and closing. -/
theorem c7_transfer_invariants_witness :
    (runTransfer 10 (0, initialTransfer TransferDirection.upload "t1" "l" "r" 10)
      ([TransferEvent.data 4] ++ [TransferEvent.data 6, TransferEvent.close])).2.progress
      ≤ 100 ∧
    ((runTransfer 10 (0, initialTransfer TransferDirection.upload "t1" "l" "r" 10)
      ([TransferEvent.data 4] ++ [TransferEvent.data 6, TransferEvent.close])).2.status
        = TransferStatus.completed →
      (runTransfer 10 (0, initialTransfer TransferDirection.upload "t1" "l" "r" 10)
        ([TransferEvent.data 4] ++
          [TransferEvent.data 6, TransferEvent.close])).2.bytesTransferred = 10) ∧
    (runTransfer 10 (0, initialTransfer TransferDirection.upload "t1" "l" "r" 10)
      [TransferEvent.data 4]).2.progress ≤
    (runTransfer 10 (0, initialTransfer TransferDirection.upload "t1" "l" "r" 10)
      ([TransferEvent.data 4] ++
        [TransferEvent.data 6, TransferEvent.close])).2.progress := by
  have h := c7_transfer_invariants 10 TransferDirection.upload "t1" "l" "r"
    [TransferEvent.data 4] [TransferEvent.data 6, TransferEvent.close]
    (by decide) (by decide)
  exact ⟨h.2.1, h.2.2.2.2.1, h.2.2.2.2.2.1⟩

/-! ## Claim C8 -/

theorem alRemove_sublist {α : Type} :
    ∀ (m : List (String × α)) (k : String), List.Sublist (alRemove m k) m := by
  intro m
  induction m with
  | nil => intro k; simp [alRemove]
  | cons kv rest ih =>
    intro k
    unfold alRemove
    by_cases hk : kv.1 = k
    · simp only [hk, if_pos rfl]
      exact List.sublist_cons_self kv rest
    · simp only [if_neg hk]
      exact List.Sublist.cons₂ kv (ih k)

theorem mem_alSet {α : Type} :
    ∀ (m : List (String × α)) (k : String) (v : α) (x : String × α),
      x ∈ alSet m k v → x ∈ m ∨ x = (k, v) := by
  intro m
  induction m with
  | nil =>
    intro k v x hx
    simp [alSet] at hx
    exact Or.inr hx
  | cons kv rest ih =>
    intro k v x hx
    unfold alSet at hx
    by_cases hk : kv.1 = k
    · rw [if_pos hk, List.mem_cons] at hx
      rcases hx with h | h
      · exact Or.inr h
      · exact Or.inl (List.mem_cons_of_mem kv h)
    · rw [if_neg hk, List.mem_cons] at hx
      rcases hx with h | h
      · exact Or.inl (h ▸ List.mem_cons_self kv rest)
      · rcases ih k v x h with h2 | h2
        · exact Or.inl (List.mem_cons_of_mem kv h2)
        · exact Or.inr h2

theorem pairwise_alSet {α : Type} {R : (String × α) → (String × α) → Prop} :
    ∀ (m : List (String × α)) (k : String) (v : α),
      m.Pairwise R → (∀ kv ∈ m, R (k, v) kv ∧ R kv (k, v)) →
      (alSet m k v).Pairwise R := by
  intro m
  induction m with
  | nil =>
    intro k v _ _
    simp [alSet]
  | cons kv rest ih =>
    intro k v hp hR
    rw [List.pairwise_cons] at hp
    unfold alSet
    by_cases hk : kv.1 = k
    · rw [if_pos hk, List.pairwise_cons]
      exact ⟨fun b hb => (hR b (List.mem_cons_of_mem kv hb)).1, hp.2⟩
    · simp only [if_neg hk]
      rw [List.pairwise_cons]
      constructor
      · intro b hb
        rcases mem_alSet rest k v b hb with h | h
        · exact hp.1 b h
        · rw [h]
          exact (hR kv (List.mem_cons_self kv rest)).2
      · exact ih k v hp.2 (fun x hx => hR x (List.mem_cons_of_mem kv hx))

theorem alUpdate_alSet {α : Type} :
    ∀ (m : List (String × α)) (k : String) (v : α) (g : α → α),
      alUpdate (alSet m k v) k g = alSet m k (g v) := by
  intro m
  induction m with
  | nil =>
    intro k v g
    simp [alSet, alUpdate]
  | cons kv rest ih =>
    intro k v g
    unfold alSet
    by_cases hk : kv.1 = k
    · rw [if_pos hk, if_pos hk]
      simp [alUpdate]
    · rw [if_neg hk, if_neg hk]
      unfold alUpdate
      rw [if_neg hk, ih]

theorem alGet_none_of_not_mem {α : Type} :
    ∀ (m : List (String × α)) (k : String), k ∉ m.map Prod.fst → alGet m k = none := by
  intro m
  induction m with
  | nil => intro k _; rfl
  | cons kv rest ih =>
    intro k h
    simp only [List.map_cons, List.mem_cons, not_or] at h
    unfold alGet
    rw [if_neg (fun he => h.1 he.symm)]
    exact ih k h.2

theorem alGet_alRemove_self {α : Type} :
    ∀ (m : List (String × α)) (k : String), (m.map Prod.fst).Nodup →
      alGet (alRemove m k) k = none := by
  intro m
  induction m with
  | nil => intro k _; rfl
  | cons kv rest ih =>
    intro k hnd
    rw [List.map_cons, List.nodup_cons] at hnd
    unfold alRemove
    by_cases hk : kv.1 = k
    · rw [if_pos hk]
      exact alGet_none_of_not_mem rest k (hk ▸ hnd.1)
    · rw [if_neg hk]
      unfold alGet
      rw [if_neg hk]
      exact ih k hnd.2

theorem tunnelStep_unique (ts : TunnelState) (op : TunnelOp)
    (hp : TunnelPortsUnique ts) : TunnelPortsUnique (applyTunnelOp ts op) := by
  cases op with
  | close i =>
    simp only [applyTunnelOp, closeTunnel]
    cases halg : alGet ts.tunnels i with
    | none => exact hp
    | some r => exact hp.sublist (alRemove_sublist ts.tunnels i)
  | create conn cfg fresh listen =>
    simp only [applyTunnelOp, createTunnel]
    by_cases hc : (!conn) = true
    · rw [if_pos hc]
      exact hp
    · rw [if_neg hc]
      by_cases hport : portInUse ts cfg.localPort = true
      · rw [if_pos hport]
        exact hp
      · rw [if_neg hport]
        have hpairs : ∀ kv ∈ ts.tunnels, kv.2.isActive = true →
            kv.2.config.localPort ≠ cfg.localPort := by
          intro kv hkv hact heq
          apply hport
          unfold portInUse
          rw [List.any_eq_true]
          exact ⟨kv, hkv, by simp [hact, heq]⟩
        have hinactive : TunnelPortsUnique
            { tunnels := alSet ts.tunnels
                (match cfg.id with
                 | some i => if i = "" then fresh else i
                 | none => fresh)
                { config := { cfg with id := some (match cfg.id with
                    | some i => if i = "" then fresh else i
                    | none => fresh) },
                  hasServer := true, connections := [], isActive := false } } := by
          apply pairwise_alSet _ _ _ hp
          intro kv hkv
          constructor
          · intro hact
            simp at hact
          · intro _ hact
            simp at hact
        cases listen with
        | none =>
          show TunnelPortsUnique { tunnels := alUpdate (alSet _ _ _) _ _ }
          rw [alUpdate_alSet]
          apply pairwise_alSet _ _ _ hp
          intro kv hkv
          constructor
          · intro _ hact heq
            exact hpairs kv hkv hact heq.symm
          · intro hact _ heq
            exact hpairs kv hkv hact heq
        | some m =>
          simp only [closeTunnel]
          split
          · exact hinactive
          · exact hinactive.sublist (alRemove_sublist _ _)

/-- C8: active tunnels never share a local port along any operation sequence;
createTunnel rejects a request whose local port an active tunnel already
binds, with the port-in-use error and an unchanged map; and closeTunnel on an
existing tunnel reports true and erases the record. -/
theorem c8_tunnel_port_uniqueness :
    (∀ ops : List TunnelOp, TunnelPortsUnique (runTunnelOps ops))
    ∧ (∀ (ts : TunnelState) (cfg : TunnelConfig) (freshId : String)
          (listen : Option String),
        portInUse ts cfg.localPort = true →
        createTunnel ts true cfg freshId listen =
          (ts, Except.error ("本地端口 " ++ toString cfg.localPort ++
            " 已被另一个隧道使用")))
    ∧ (∀ (ts : TunnelState) (i : String) (r : TunnelRec),
        (ts.tunnels.map Prod.fst).Nodup →
        alGet ts.tunnels i = some r →
        (closeTunnel ts i).2 = true ∧
          alGet (closeTunnel ts i).1.tunnels i = none) := by
  refine ⟨?_, ?_, ?_⟩
  · intro ops
    have h : ∀ (l : List TunnelOp) (ts : TunnelState), TunnelPortsUnique ts →
        TunnelPortsUnique (l.foldl applyTunnelOp ts) := by
      intro l
      induction l with
      | nil => intro ts h; exact h
      | cons op rest ih => intro ts h; exact ih _ (tunnelStep_unique ts op h)
    exact h ops { tunnels := [] } List.Pairwise.nil
  · intro ts cfg freshId listen hport
    simp [createTunnel, hport]
  · intro ts i r hnd hget
    simp only [closeTunnel, hget]
    exact ⟨trivial, alGet_alRemove_self ts.tunnels i hnd⟩

/-- C8 witness: after opening a tunnel on port 8080, a second create on 8080
is rejected with the port-in-use error, and closing the first erases it. -/
theorem c8_tunnel_port_uniqueness_witness :
    TunnelPortsUnique (runTunnelOps [TunnelOp.create true wTunnelCfg "t1" none]) ∧
    createTunnel wTs true wTunnelCfg2 "t2" none =
      (wTs, Except.error "本地端口 8080 已被另一个隧道使用") ∧
    (closeTunnel wTs "t1").2 = true ∧
    alGet (closeTunnel wTs "t1").1.tunnels "t1" = none := by
  have h2 := c8_tunnel_port_uniqueness.2.1 wTs wTunnelCfg2 "t2" none (by decide)
  have h3 := c8_tunnel_port_uniqueness.2.2 wTs "t1" wTunnelRec (by decide) (by decide)
  have hs : ("本地端口 " ++ toString wTunnelCfg2.localPort ++ " 已被另一个隧道使用")
      = "本地端口 8080 已被另一个隧道使用" := by decide
  rw [hs] at h2
  exact ⟨c8_tunnel_port_uniqueness.1 [TunnelOp.create true wTunnelCfg "t1" none],
    h2, h3.1, h3.2⟩

/-! ## Claim C9 -/

theorem alUpdate_map_lastUsed :
    ∀ (m : List (String × SSHConnection)) (k : String) (f : SSHConnection → SSHConnection),
      (∀ c, (f c).lastUsed = c.lastUsed) →
      (alUpdate m k f).map (fun kv => (kv.1, kv.2.lastUsed)) =
        m.map (fun kv => (kv.1, kv.2.lastUsed)) := by
  intro m
  induction m with
  | nil => intro k f _; rfl
  | cons kv rest ih =>
    intro k f hf
    unfold alUpdate
    by_cases hk : kv.1 = k
    · rw [if_pos hk]
      simp only [List.map_cons, hf kv.2]
    · rw [if_neg hk]
      simp only [List.map_cons, ih k f hf]

theorem dockerCtxLoop_connections (env : Env) (parsed : ParsedCommand) (cid : String) :
    ∀ (ds : List DockerExecCommand) (st : ServiceState) (co ce : String)
      (code : Int) (act : Option String),
      (dockerCtxLoop env parsed cid st ds co ce code act).1.connections = st.connections := by
  intro ds
  induction ds with
  | nil => intro st co ce code act; rfl
  | cons d rest ih =>
    intro st co ce code act
    simp only [dockerCtxLoop]
    cases hex : env.exec ((buildContainerCommand
        { parsed with dockerCommands := [d] } none).headD "") with
    | error m => rfl
    | ok r =>
      simp only []
      by_cases hcode : (r.code ≠ 0)
      · rw [if_pos hcode]
      · rw [if_neg hcode]
        exact ih _ _ _ _ _

theorem edcc_connections (env : Env) (st : ServiceState) (cid : String)
    (parsed : ParsedCommand) :
    (executeDockerContextCommand env st cid parsed).1.connections = st.connections := by
  simp only [executeDockerContextCommand]
  cases halg : alGet st.connections cid with
  | none => rfl
  | some conn =>
    simp only []
    by_cases hn : conn.client.isNone = true
    · rw [if_pos hn]
    · rw [if_neg hn]
      rcases hloop : dockerCtxLoop env parsed cid st parsed.dockerCommands "" "" 0 none
        with ⟨st', tr, res⟩
      have hst' : st'.connections = st.connections := by
        have := dockerCtxLoop_connections env parsed cid parsed.dockerCommands st "" "" 0 none
        rw [hloop] at this
        exact this
      cases res with
      | error e =>
        rcases e with ⟨m, co, ce⟩
        simp only [hloop]
        exact hst'
      | ok o =>
        rcases o with ⟨co, ce, lastCode, active⟩
        simp only [hloop]
        cases active with
        | none => exact hst'
        | some a =>
          simp only []
          by_cases hcond : (!parsed.regularCommands.isEmpty && a ≠ "" &&
              lastCode = 0) = true
          · rw [if_pos hcond]
            cases hex : env.exec (buildContainerExecCommand a
                ("sh -c \"" ++ String.intercalate " && " parsed.regularCommands ++ "\"")
                (getContainerContextNamed st'.containerSessions cid a) false) with
            | error m => exact hst'
            | ok r => exact hst'
          · rw [if_neg hcond]
            exact hst'

theorem rest_lastUsed (env : Env) (st : ServiceState) (cid : String)
    (conn : SSHConnection) (cmd : String) (parsed : ParsedCommand) :
    (executeCommandRest env st cid conn cmd parsed).1.connections.map
        (fun kv => (kv.1, kv.2.lastUsed)) =
      st.connections.map (fun kv => (kv.1, kv.2.lastUsed)) := by
  simp only [executeCommandRest]
  cases hex : env.exec (sudoRewrite env conn cmd) with
  | error m => rfl
  | ok r =>
    simp only []
    by_cases hcd : strStartsWith (jsTrim (sudoRewrite env conn cmd)) "cd " = true
    · rw [if_pos hcd]
      rcases hg : getCurrentDirectory env st cid with ⟨tr2, res⟩
      cases res with
      | error m => simp only [hg]
      | ok dir =>
        simp only [hg]
        split
        · split
          · exact alUpdate_map_lastUsed st.connections cid _ (fun c => rfl)
          · exact alUpdate_map_lastUsed st.connections cid _ (fun c => rfl)
        · exact alUpdate_map_lastUsed st.connections cid _ (fun c => rfl)
    · rw [if_neg hcd]
      split
      · rename_i st1 tr m heq
        simp at heq
      · rename_i st1 tr heq
        simp only [Prod.mk.injEq] at heq
        obtain ⟨h1, -⟩ := heq
        subst h1
        split
        · split
          · rfl
          · rfl
        · rfl

theorem executeCommand_lastUsed (env : Env) :
    ∀ (fuel : Nat) (st : ServiceState) (cid cmd : String),
      (executeCommand env fuel st cid cmd).1.connections.map
          (fun kv => (kv.1, kv.2.lastUsed)) =
        st.connections.map (fun kv => (kv.1, kv.2.lastUsed)) := by
  intro fuel
  induction fuel with
  | zero => intro st cid cmd; rfl
  | succ fuel ih =>
    intro st cid cmd
    simp only [executeCommand]
    cases halg : alGet st.connections cid with
    | none => rfl
    | some conn =>
      simp only []
      by_cases hrej : (conn.client.isNone || conn.status ≠ ConnectionStatus.connected)
          = true
      · rw [if_pos hrej]
      · rw [if_neg hrej]
        have hbody : ((executeCommandBody env (executeCommand env fuel)
              st cid cmd conn).1.connections.map (fun kv => (kv.1, kv.2.lastUsed))) =
            st.connections.map (fun kv => (kv.1, kv.2.lastUsed)) := by
          simp only [executeCommandBody]
          by_cases hncc : (parseCommand cmd).needsContainerContext = true
          · rw [if_pos hncc]
            rw [edcc_connections]
          · rw [if_neg hncc]
            cases hgac : getActiveContainer st.containerSessions cid with
            | none => exact rest_lastUsed env st cid conn cmd (parseCommand cmd)
            | some a =>
              simp only []
              by_cases hwrap : (a ≠ "" &&
                  (parseCommand cmd).ptype = ParsedType.regular) = true
              · rw [if_pos hwrap]
                exact ih st cid _
              · rw [if_neg hwrap]
                exact rest_lastUsed env st cid conn cmd (parseCommand cmd)
        rcases hb : executeCommandBody env (executeCommand env fuel) st cid cmd conn
          with ⟨st', tr, o⟩
        rw [hb] at hbody
        cases o with
        | thrown m => exact hbody
        | ok r => exact hbody
        | fuelOut => exact hbody

/-- C9 counterexample: a successful executeCommand call on a connected
connection leaves the stored record's lastUsed exactly as it was (some 5,
while the clock reads 10): the code updates the dispatcher's
activeConnections timestamp instead (part_000:522) and never touches
connection.lastUsed. -/
theorem c9_counterexample :
    wConn.lastUsed = some 5 ∧
    (executeCommand wEnv 1 wSt "cid" "ls").2.2 =
      ExecOut.ok { stdout := "ok", stderr := "", code := 0 } ∧
    (executeCommand wEnv 1 wSt "cid" "ls").1.connections.map
      (fun kv => (kv.1, kv.2.lastUsed)) = [("cid", some 5)] := by
  refine ⟨by decide, by decide, by decide⟩

/-- C9 (amended): the executeCommand tool call is rejected unless the target
connection exists and is connected — a missing id and a not-connected
record produce the exact isError texts, and the service layer itself throws
the not-connected message; on a connected connection the handler refreshes
the dispatcher's activeConnections timestamp for the id, while the stored
record's own lastUsed field is never modified by executeCommand. -/
theorem c9_reject_and_activity :
    (∀ (sks : String → Option String) (exec : String → Except String CommandResult)
        (active : List (String × Nat)) (now : Nat) (cid cmd : String) (force : Bool),
      executeCommandToolPre sks exec none active now cid cmd force =
        (active, [], ToolOutcome.errorText ("错误: 连接 " ++ cid ++ " 不存在")))
    ∧ (∀ (sks : String → Option String) (exec : String → Except String CommandResult)
          (cv : ToolConnView) (active : List (String × Nat)) (now : Nat)
          (cid cmd : String) (force : Bool),
        cv.status ≠ ConnectionStatus.connected →
        executeCommandToolPre sks exec (some cv) active now cid cmd force =
          (active, [], ToolOutcome.errorText ("错误: 连接 " ++
            (match cv.name with
             | some n => if n = "" then cid else n
             | none => cid) ++ " 未连接")))
    ∧ (∀ (env : Env) (fuel : Nat) (st : ServiceState) (cid cmd : String),
        (alGet st.connections cid = none ∨
          ∃ conn, alGet st.connections cid = some conn ∧
            (conn.client.isNone = true ∨ conn.status ≠ ConnectionStatus.connected)) →
        executeCommand env (fuel + 1) st cid cmd =
          (st, [], ExecOut.thrown (notConnectedMsg cid)))
    ∧ (∀ (sks : String → Option String) (exec : String → Except String CommandResult)
          (cv : ToolConnView) (active : List (String × Nat)) (now : Nat)
          (cid cmd : String) (force : Bool),
        cv.status = ConnectionStatus.connected →
        (executeCommandToolPre sks exec (some cv) active now cid cmd force).1 =
          alSet active cid now)
    ∧ (∀ (env : Env) (fuel : Nat) (st : ServiceState) (cid cmd : String),
        (executeCommand env fuel st cid cmd).1.connections.map
            (fun kv => (kv.1, kv.2.lastUsed)) =
          st.connections.map (fun kv => (kv.1, kv.2.lastUsed))) := by
  refine ⟨?_, ?_, ?_, ?_, ?_⟩
  · intro sks exec active now cid cmd force
    rfl
  · intro sks exec cv active now cid cmd force hne
    simp only [executeCommandToolPre]
    rw [if_pos hne]
  · intro env fuel st cid cmd h
    rcases h with h | ⟨conn, hget, hrej⟩
    · simp only [executeCommand, h]
    · simp only [executeCommand, hget]
      have hcond : (conn.client.isNone ||
          decide (conn.status ≠ ConnectionStatus.connected)) = true := by
        rcases hrej with h1 | h1
        · simp [h1]
        · simp [h1]
      rw [if_pos hcond]
  · intro sks exec cv active now cid cmd force hst
    simp only [executeCommandToolPre]
    rw [if_neg (fun h => h hst)]
    cases hm : sks cmd with
    | none => rfl
    | some sess =>
      cases force with
      | true => rfl
      | false =>
        simp only []
        rcases htp : tmuxPreflight exec sess with ⟨tr, o⟩
        cases o with
        | none => rfl
        | some errText => rfl
  · intro env fuel st cid cmd
    exact executeCommand_lastUsed env fuel st cid cmd

/-- C9 witness: a disconnected record is rejected with the exact text, an
unknown id throws at the service layer, and a connected call stamps the
dispatcher's activity map. -/
theorem c9_reject_and_activity_witness :
    executeCommandToolPre wSendKeys (fun s => Except.ok (wProbe s))
        (some ⟨some "n", ConnectionStatus.disconnected⟩) [] 3 "cid" "ls" false =
      ([], [], ToolOutcome.errorText "错误: 连接 n 未连接") ∧
    executeCommand wEnv (0 + 1) wStEmpty "cid" "ls" =
      (wStEmpty, [], ExecOut.thrown (notConnectedMsg "cid")) ∧
    (executeCommandToolPre wSendKeys (fun s => Except.ok (wProbe s))
        (some ⟨some "n", ConnectionStatus.connected⟩) [] 3 "cid" "ls" false).1 =
      alSet [] "cid" 3 := by
  have h2 := c9_reject_and_activity.2.1 wSendKeys (fun s => Except.ok (wProbe s))
    ⟨some "n", ConnectionStatus.disconnected⟩ [] 3 "cid" "ls" false (by decide)
  have h3 := c9_reject_and_activity.2.2.1 wEnv 0 wStEmpty "cid" "ls" (Or.inl (by rfl))
  have h4 := c9_reject_and_activity.2.2.2.1 wSendKeys (fun s => Except.ok (wProbe s))
    ⟨some "n", ConnectionStatus.connected⟩ [] 3 "cid" "ls" false rfl
  refine ⟨?_, h3, h4⟩
  rw [h2]
  rfl
